import Mathlib

/-!
# Verification of the meta_ads ingestion scripts

A shallow embedding of the three ingestion scripts (`meta_data_full.py`,
`meta_age.py`, `meta_region.py`): the result resolvers, the metric
flatteners, the purchase-value aggregation, the paginated fetch loop and
the window-scoped delete-then-insert writer, together with theorems about
them.

Python values arriving from the JSON API are modelled by `PyVal`
(null / string / number / list / object).  Python floats are modelled as
exact rationals extended with the IEEE specials `inf`, `-inf` and `nan`
(claims here concern structure, never rounding).  Fallible Python code is
embedded in `Except PyErr`; an exception that a `try` block does not catch
propagates as an `Except.error`.
-/

/-- Idealized Python float: exact rationals plus the IEEE special values. -/
inductive PyFloat where
  | finite (q : ℚ)
  | inf
  | ninf
  | nan
deriving DecidableEq

/-- Rational addition routed through `Rat.divInt` so that it evaluates in
the kernel (`Rat.add` itself is irreducible); `qAdd_eq` identifies it with
`+`. -/
def qAdd (a b : ℚ) : ℚ :=
  Rat.divInt (a.num * (b.den : ℤ) + b.num * (a.den : ℤ)) ((a.den : ℤ) * (b.den : ℤ))

theorem qAdd_eq (a b : ℚ) : qAdd a b = a + b := by
  have ha : (a.den : ℤ) ≠ 0 := Int.ofNat_ne_zero.mpr a.den_nz
  have hb : (b.den : ℤ) ≠ 0 := Int.ofNat_ne_zero.mpr b.den_nz
  rw [qAdd, ← Rat.divInt_add_divInt _ _ ha hb, Rat.num_divInt_den, Rat.num_divInt_den]

/-- Python float addition (`+`) on the idealized floats. -/
def pyAdd : PyFloat → PyFloat → PyFloat
  | .nan, _ => .nan
  | _, .nan => .nan
  | .inf, .ninf => .nan
  | .ninf, .inf => .nan
  | .inf, _ => .inf
  | _, .inf => .inf
  | .ninf, _ => .ninf
  | _, .ninf => .ninf
  | .finite a, .finite b => .finite (qAdd a b)

/-- Python float comparison (`<=`); any comparison with `nan` is false. -/
def pyLe : PyFloat → PyFloat → Bool
  | .nan, _ => false
  | _, .nan => false
  | .ninf, _ => true
  | _, .ninf => false
  | .finite a, .finite b => decide (a ≤ b)
  | .finite _, .inf => true
  | .inf, .inf => true
  | .inf, .finite _ => false

/-- `math.isfinite`: true exactly on the finite floats. -/
def PyFloat.isFinite : PyFloat → Bool
  | .finite _ => true
  | _ => false

/-- Python exception classes that the scripts raise or catch. -/
inductive PyErr where
  | keyError
  | indexError
  | typeError
  | valueError
  | attributeError
deriving DecidableEq

/-- JSON-shaped Python values as returned by `response.json()`:
`None`, strings, numbers, lists and string-keyed dicts. -/
inductive PyVal where
  | none
  | str (s : String)
  | num (x : PyFloat)
  | vlist (l : List PyVal)
  | dict (l : List (String × PyVal))

/-- A Python dict with string keys, in insertion order. -/
abbrev PyDict := List (String × PyVal)

/-- Dict lookup (`d.get(k)` as an `Option`): value of the first binding of `k`. -/
def dget : PyDict → String → Option PyVal
  | [], _ => Option.none
  | (k0, v0) :: rest, k => if k0 = k then some v0 else dget rest k

/-- Dict update (`d[k] = v`): replace the first binding of `k`, or append. -/
def dset : PyDict → String → PyVal → PyDict
  | [], k, v => [(k, v)]
  | (k0, v0) :: rest, k, v =>
      if k0 = k then (k, v) :: rest else (k0, v0) :: dset rest k v

/-- Python truthiness (`if value:`). `nan` is truthy; empty containers,
empty strings, `None` and zero are falsy. -/
def truthy : PyVal → Bool
  | .none => false
  | .str s => !s.isEmpty
  | .num (.finite q) => decide (q ≠ 0)
  | .num _ => true
  | .vlist l => !l.isEmpty
  | .dict l => !l.isEmpty

/-- Subscripting by a string key (`v[k]`): `KeyError` when the key is
absent, `TypeError` when `v` is not a dict. -/
def pySubscript (v : PyVal) (k : String) : Except PyErr PyVal :=
  match v with
  | .dict d =>
      match dget d k with
      | some x => .ok x
      | Option.none => .error .keyError
  | _ => .error .typeError

/-- Subscripting by index 0 (`v[0]`): first element of a list,
first character of a string, `IndexError` on an empty list,
`KeyError` on a dict (integer key absent), `TypeError` otherwise. -/
def pyIndex0 (v : PyVal) : Except PyErr PyVal :=
  match v with
  | .vlist (h :: _) => .ok h
  | .vlist [] => .error .indexError
  | .str s =>
      match s.data with
      | c :: _ => .ok (.str (String.mk [c]))
      | [] => .error .indexError
  | .dict _ => .error .keyError
  | _ => .error .typeError

/-- The method call `v.get(k, dflt)`: defined on dicts only
(`AttributeError` otherwise). -/
def pyDictGet (v : PyVal) (k : String) (dflt : PyVal) : Except PyErr PyVal :=
  match v with
  | .dict d => .ok ((dget d k).getD dflt)
  | _ => .error .attributeError

/-- Iteration (`for x in v`): lists give their elements, strings their
characters (as one-character strings), dicts their keys; numbers and
`None` raise `TypeError`. -/
def pyIter (v : PyVal) : Except PyErr (List PyVal) :=
  match v with
  | .vlist l => .ok l
  | .str s => .ok (s.data.map (fun c => .str (String.mk [c])))
  | .dict d => .ok (d.map (fun p => .str p.1))
  | _ => .error .typeError

/-- Python `==` between a value and a string literal: true only for the
equal string. -/
def pyEqStr (v : PyVal) (s : String) : Bool :=
  match v with
  | .str t => t = s
  | _ => false

/-! ## The `float()` builtin on strings

The scripts coerce API string values with Python's `float()`.  We model it
on the forms the API emits: optional surrounding whitespace, an optional
sign, then either a decimal literal (`digits`, `digits.digits`, `.digits`,
`digits.`, optionally with a decimal exponent) or one of the special words
`inf` / `infinity` / `nan` (case-insensitive).  Unparsable strings are a
`ValueError` (`Option.none` here). -/

/-- Characters Python `float()` strips from both ends. -/
def isPySpace (c : Char) : Bool :=
  c = ' ' || c = '\t' || c = '\n' || c = '\r' || c = '\x0b' || c = '\x0c'

/-- Numeric value of a digit run (most significant first). -/
def digitsVal (l : List Char) : ℕ :=
  l.foldl (fun a c => a * 10 + (c.toNat - 48)) 0

/-- Split a character list at the first occurrence of a separator
satisfying `p`; returns the part before and the part after blanks the
separator itself. -/
def splitFirst (p : Char → Bool) : List Char → Option (List Char × List Char)
  | [] => Option.none
  | c :: rest =>
      if p c then some ([], rest)
      else match splitFirst p rest with
           | some (a, b) => some (c :: a, b)
           | Option.none => Option.none

/-- Parse the mantissa `digits[.digits]` to a rational; at least one digit
must be present overall.  `d₁…dₘ.f₁…fₖ` denotes `d₁…dₘf₁…fₖ / 10^k`. -/
def parseMantissa (l : List Char) : Option ℚ :=
  match splitFirst (· = '.') l with
  | Option.none =>
      if l ≠ [] ∧ l.all Char.isDigit then
        some (Rat.divInt (digitsVal l : ℤ) 1)
      else Option.none
  | some (ip, fp) =>
      if (ip ++ fp) ≠ [] ∧ (ip ++ fp).all Char.isDigit ∧ fp.all (· ≠ '.') then
        some (Rat.divInt (digitsVal (ip ++ fp) : ℤ) ((10 : ℤ) ^ fp.length))
      else Option.none

/-- Parse an optionally signed decimal exponent. -/
def parseExp (l : List Char) : Option ℤ :=
  match l with
  | '+' :: rest =>
      if rest ≠ [] ∧ rest.all Char.isDigit then some (digitsVal rest : ℤ) else Option.none
  | '-' :: rest =>
      if rest ≠ [] ∧ rest.all Char.isDigit then some (-(digitsVal rest : ℤ)) else Option.none
  | _ =>
      if l ≠ [] ∧ l.all Char.isDigit then some (digitsVal l : ℤ) else Option.none

/-- Scale a rational by `10^z` (kernel-evaluable). -/
def mulPow10 (q : ℚ) (z : ℤ) : ℚ :=
  match z with
  | .ofNat n => Rat.divInt (q.num * (10 : ℤ) ^ n) (q.den : ℤ)
  | .negSucc n => Rat.divInt q.num ((q.den : ℤ) * (10 : ℤ) ^ (n + 1))

/-- Parse an unsigned numeric literal, with optional exponent part. -/
def parseUnsignedNum (l : List Char) : Option ℚ :=
  match splitFirst (fun c => c = 'e' || c = 'E') l with
  | Option.none => parseMantissa l
  | some (m, e) =>
      match parseMantissa m, parseExp e with
      | some q, some z => some (mulPow10 q z)
      | _, _ => Option.none

/-- Parse an unsigned payload: a special word or a numeric literal. -/
def parseUnsigned (l : List Char) : Option PyFloat :=
  let low := l.map Char.toLower
  if low = "inf".data ∨ low = "infinity".data then some .inf
  else if low = "nan".data then some .nan
  else (parseUnsignedNum l).map .finite

/-- Negation on the idealized floats. -/
def pyNeg : PyFloat → PyFloat
  | .finite q => .finite (Rat.neg q)
  | .inf => .ninf
  | .ninf => .inf
  | .nan => .nan

/-- `float(s)` for a string `s`: `Option.none` models `ValueError`. -/
def parsePyFloat (s : String) : Option PyFloat :=
  let l := ((s.data.dropWhile isPySpace).reverse.dropWhile isPySpace).reverse
  match l with
  | '+' :: rest => parseUnsigned rest
  | '-' :: rest => (parseUnsigned rest).map pyNeg
  | _ => parseUnsigned l

/-- `float(v)` on a `PyVal`: numbers pass through, strings are parsed
(`ValueError` on failure), everything else is a `TypeError`. -/
def pyFloatOf (v : PyVal) : Except PyErr PyFloat :=
  match v with
  | .num x => .ok x
  | .str s =>
      match parsePyFloat s with
      | some x => .ok x
      | Option.none => .error .valueError
  | _ => .error .typeError

/-- `safe_float` from the scripts, and the identical inline pattern
`try: return float(value) if value else 0 except (ValueError, TypeError):
return 0`.  Total: both caught exception classes cover every failure of
`float()` here. -/
def safe_float (v : PyVal) : PyFloat :=
  if truthy v then
    match pyFloatOf v with
    | .ok x => x
    | .error _ => .finite 0
  else .finite 0

example : safe_float (.str "50") = .finite 50 := by decide
example : safe_float (.str "abc") = .finite 0 := by decide
example : safe_float (.str "inf") = .inf := by decide
example : safe_float (.str "-5") = .finite (-5) := by decide
example : safe_float (.str "1.5") = .finite (mkRat 3 2) := by decide
example : safe_float .none = .finite 0 := by decide
example : safe_float (.str "") = .finite 0 := by decide
example : pyLe (.finite (-5)) (.finite 0) = true := by decide
example : pyAdd (.finite 1) (.finite 2) = .finite 3 := by decide

/-! ## Result resolvers

`extract_result` from `meta_data_full.py` (lines 140-177, the fixed
multi-candidate version) and from `meta_region.py` (lines 103-145, the
older single-candidate version with a first-action fallback).  The inline
`try: return float(value) if value else 0 except (ValueError, TypeError):
return 0` pattern is `safe_float`.  A `KeyError` from `action["action_type"]`
is not caught and propagates (`Except.error`). -/

namespace MetaDataFull

/-- `OBJECTIVE_TO_RESULT_ACTIONS` from `meta_data_full.py`: objective →
ordered candidate action types. -/
def OBJECTIVE_TO_RESULT_ACTIONS : List (String × List String) := [
  ("OUTCOME_SALES", ["omni_purchase",
    "offsite_conversion.fb_pixel_purchase",
    "purchase",
    "onsite_web_purchase",
    "onsite_web_app_purchase",
    "web_in_store_purchase"]),
  ("CONVERSIONS", ["omni_purchase",
    "offsite_conversion.fb_pixel_purchase",
    "purchase"]),
  ("CATALOG_SALES", ["omni_purchase",
    "offsite_conversion.fb_pixel_purchase"]),
  ("LINK_CLICKS", ["link_click"]),
  ("OUTCOME_TRAFFIC", ["link_click"]),
  ("OUTCOME_ENGAGEMENT", ["post_engagement", "page_engagement"]),
  ("POST_ENGAGEMENT", ["post_engagement"]),
  ("OUTCOME_LEADS", ["lead",
    "offsite_conversion.fb_pixel_lead",
    "onsite_conversion.lead_grouped"]),
  ("OUTCOME_AWARENESS", []),
  ("REACH", []),
  ("BRAND_AWARENESS", []),
  ("OUTCOME_APP_PROMOTION", ["app_install", "mobile_app_install"]),
  ("MESSAGES", ["onsite_conversion.messaging_conversation_started_7d",
    "onsite_conversion.messaging_first_reply"]),
  ("PAGE_LIKES", ["like"]),
  ("EVENT_RESPONSES", ["event_response"]),
  ("STORE_VISITS", ["omni_store_visit"]),
  ("VIDEO_VIEWS", ["video_view"])]

/-- `OBJECTIVE_TO_RESULT_ACTIONS.get(objective, [])`: dict lookup with a
possibly non-string key (a non-string never equals a string key). -/
def lookupTargets (obj : PyVal) : List String :=
  match obj with
  | .str s =>
      match OBJECTIVE_TO_RESULT_ACTIONS.find? (fun p => p.1 = s) with
      | some p => p.2
      | Option.none => []
  | _ => []

/-- The awareness-class objectives special-cased in both scripts. -/
def AWARENESS_OBJECTIVES : List String :=
  ["OUTCOME_AWARENESS", "REACH", "BRAND_AWARENESS"]

/-- Inner loop `for action in actions: if action["action_type"] ==
target_action: …` — first action whose `action_type` equals the target
yields its coerced value; `action["action_type"]` may raise. -/
def scanTarget : List PyVal → String → Except PyErr (Option PyFloat)
  | [], _ => .ok Option.none
  | a :: rest, target => do
      let t ← pySubscript a "action_type"
      if pyEqStr t target then
        let v ← pyDictGet a "value" .none
        pure (some (safe_float v))
      else
        scanTarget rest target

/-- Outer loop `for target_action in target_actions:` — the sequence
`actions` is re-iterated for each candidate, in order. -/
def scanTargets (actions : PyVal) : List String → Except PyErr (Option PyFloat)
  | [] => .ok Option.none
  | t :: ts => do
      let l ← pyIter actions
      match ← scanTarget l t with
      | some x => pure (some x)
      | Option.none => scanTargets actions ts

/-- `extract_result` from `meta_data_full.py`: awareness objectives
return coerced `reach`; otherwise the first candidate action type (per
`OBJECTIVE_TO_RESULT_ACTIONS`) present in `actions` yields its value, and
with no match the result is 0 (no first-action fallback). -/
def extract_result (row : PyDict) : Except PyErr PyFloat :=
  let objective : PyVal := (dget row "objective").getD (.str "")
  let actions : PyVal :=
    let raw := (dget row "actions").getD .none
    if truthy raw then raw else .vlist []
  if AWARENESS_OBJECTIVES.any (fun s => pyEqStr objective s) then
    .ok (safe_float ((dget row "reach").getD .none))
  else do
    match ← scanTargets actions (lookupTargets objective) with
    | some x => pure x
    | Option.none => pure (.finite 0)

end MetaDataFull

namespace MetaRegion

/-- `OBJECTIVE_TO_RESULT_ACTION` from `meta_region.py`: objective → one
target action type. -/
def OBJECTIVE_TO_RESULT_ACTION : List (String × String) := [
  ("LINK_CLICKS", "link_click"),
  ("OUTCOME_TRAFFIC", "link_click"),
  ("OUTCOME_ENGAGEMENT", "post_engagement"),
  ("OUTCOME_AWARENESS", "reach"),
  ("OUTCOME_LEADS", "lead"),
  ("OUTCOME_SALES", "offsite_conversion.fb_pixel_purchase"),
  ("OUTCOME_APP_PROMOTION", "app_install"),
  ("POST_ENGAGEMENT", "post_engagement"),
  ("PAGE_LIKES", "like"),
  ("EVENT_RESPONSES", "event_response"),
  ("MESSAGES", "onsite_conversion.messaging_conversation_started_7d"),
  ("CONVERSIONS", "offsite_conversion.fb_pixel_purchase"),
  ("CATALOG_SALES", "offsite_conversion.fb_pixel_purchase"),
  ("STORE_VISITS", "omni_store_visit"),
  ("REACH", "reach"),
  ("BRAND_AWARENESS", "reach"),
  ("VIDEO_VIEWS", "video_view")]

/-- `OBJECTIVE_TO_RESULT_ACTION.get(objective)`. -/
def lookupTarget (obj : PyVal) : Option String :=
  match obj with
  | .str s =>
      match OBJECTIVE_TO_RESULT_ACTION.find? (fun p => p.1 = s) with
      | some p => some p.2
      | Option.none => Option.none
  | _ => Option.none

/-- The sales-class objectives given the `omni_purchase` fallback scan. -/
def SALES_OBJECTIVES : List String :=
  ["OUTCOME_SALES", "CONVERSIONS", "CATALOG_SALES"]

/-- The tail of `meta_region.extract_result` once the target-action scans
found nothing: the awareness special case, then — for any remaining
objective with a non-empty actions list — the value of the FIRST action,
else 0. -/
def fallbackResult (row : PyDict) (actions : PyVal) : Except PyErr PyFloat :=
  if MetaDataFull.AWARENESS_OBJECTIVES.any
      (fun s => pyEqStr ((dget row "objective").getD (.str "")) s) then
    pure (safe_float ((dget row "reach").getD .none))
  else if truthy actions then do
    let first ← pyIndex0 actions
    let v ← pyDictGet first "value" .none
    pure (safe_float v)
  else
    pure (.finite 0)

/-- `extract_result` from `meta_region.py`: scan for the single target
action (plus an `omni_purchase` fallback for sales objectives), then the
awareness special case, then — for any remaining objective with a
non-empty actions list — fall back to the value of the FIRST action. -/
def extract_result (row : PyDict) : Except PyErr PyFloat :=
  let objective : PyVal := (dget row "objective").getD (.str "")
  let targetOpt := lookupTarget objective
  let actions : PyVal :=
    let raw := (dget row "actions").getD .none
    if truthy raw then raw else .vlist []
  do
    let fromTarget : Option PyFloat ←
      match targetOpt with
      | some target => do
          match ← MetaDataFull.scanTarget (← pyIter actions) target with
          | some x => pure (some x)
          | Option.none =>
              if SALES_OBJECTIVES.any (fun s => pyEqStr objective s) then
                MetaDataFull.scanTarget (← pyIter actions) "omni_purchase"
              else
                pure Option.none
      | Option.none => pure Option.none
    match fromTarget with
    | some x => pure x
    | Option.none => fallbackResult row actions

end MetaRegion

-- Scenario A from the spec: OUTCOME_SALES with only a link_click action.
example : MetaDataFull.extract_result
    [("objective", .str "OUTCOME_SALES"),
     ("actions", .vlist [.dict [("action_type", .str "link_click"),
                                ("value", .str "50")]])] = .ok (.finite 0) := rfl

-- Scenario B from the spec: OUTCOME_SALES finds the omni_purchase action.
example : MetaDataFull.extract_result
    [("objective", .str "OUTCOME_SALES"),
     ("actions", .vlist [.dict [("action_type", .str "omni_purchase"),
                                ("value", .str "3")],
                         .dict [("action_type", .str "link_click"),
                                ("value", .str "50")]])] = .ok (.finite 3) := rfl

-- meta_region: unknown objective falls back to the first action value.
example : MetaRegion.extract_result
    [("objective", .str "SOME_NEW_OBJECTIVE"),
     ("actions", .vlist [.dict [("action_type", .str "link_click"),
                                ("value", .str "50")]])] = .ok (.finite 50) := rfl

-- meta_region: an action literally typed "reach" preempts the reach field.
example : MetaRegion.extract_result
    [("objective", .str "REACH"), ("reach", .str "10"),
     ("actions", .vlist [.dict [("action_type", .str "reach"),
                                ("value", .str "5")]])] = .ok (.finite 5) := rfl

-- meta_data_full: awareness ignores actions and returns reach.
example : MetaDataFull.extract_result
    [("objective", .str "REACH"), ("reach", .str "10"),
     ("actions", .vlist [.dict [("action_type", .str "reach"),
                                ("value", .str "5")]])] = .ok (.finite 10) := rfl

-- The string "inf" passes float() and is returned non-finite.
example : MetaDataFull.extract_result
    [("objective", .str "OUTCOME_SALES"),
     ("actions", .vlist [.dict [("action_type", .str "omni_purchase"),
                                ("value", .str "inf")]])] = .ok .inf := rfl

-- An action entry missing "action_type" raises KeyError (uncaught).
example : MetaDataFull.extract_result
    [("objective", .str "OUTCOME_SALES"),
     ("actions", .vlist [.dict []])] = .error .keyError := rfl

/-! ## Metric flatteners

`flatten` from `meta_data_full.py` (lines 186-213) and from `meta_age.py`
(lines 218-290), embedded as the sequential composition of their code
blocks over the row dict. -/

/-- `s.replace(".", "_")` for a single-character pattern: map over the
characters. -/
def replaceDots (s : String) : String :=
  String.mk (s.data.map (fun c => if c = '.' then '_' else c))

/-- `a["action_type"].replace(".", "_")` — the receiver must be a string
(`AttributeError` otherwise). -/
def asStrReplaceDots (v : PyVal) : Except PyErr String :=
  match v with
  | .str s => .ok (replaceDots s)
  | _ => .error .attributeError

/-- One projection loop `for a in entries: row[mk(a["action_type"])] =
a.get("value")`, shared by the actions / action_values / catalog /
cost_per_action_type blocks (they differ only in the column name). -/
def projectLoop (mk : String → String) : List PyVal → PyDict → Except PyErr PyDict
  | [], row => .ok row
  | a :: rest, row => do
      let t ← pySubscript a "action_type"
      let col ← asStrReplaceDots t
      let v ← pyDictGet a "value" .none
      projectLoop mk rest (dset row (mk col) v)

/-- One `if row.get(key): for a in row[key]: …` block. -/
def flattenField (key : String) (mk : String → String) (row : PyDict) :
    Except PyErr PyDict :=
  let raw := (dget row key).getD .none
  if truthy raw then do
    projectLoop mk (← pyIter raw) row
  else .ok row

/-- `for r in row["purchase_roas"]: row["purchase_roas"] = r.get("value")`
— the key is rebound once per entry, so the last entry wins. -/
def purchaseRoasLoop : List PyVal → PyDict → Except PyErr PyDict
  | [], row => .ok row
  | r :: rest, row => do
      let v ← pyDictGet r "value" .none
      purchaseRoasLoop rest (dset row "purchase_roas" v)

/-- The `if row.get("purchase_roas"): …` block shared by all three scripts. -/
def flattenPurchaseRoas (row : PyDict) : Except PyErr PyDict :=
  let raw := (dget row "purchase_roas").getD .none
  if truthy raw then do
    purchaseRoasLoop (← pyIter raw) row
  else .ok row

namespace MetaDataFull

/-- `flatten` from `meta_data_full.py`: result extraction, then the
actions / action_values / purchase_roas / cost_per_action_type blocks in
source order. -/
def flatten (row : PyDict) : Except PyErr PyDict := do
  let res ← extract_result row
  let row := dset row "result" (.num res)
  let row ← flattenField "actions" (fun c => c) row
  let row ← flattenField "action_values" (fun c => c ++ "_value") row
  let row ← flattenPurchaseRoas row
  flattenField "cost_per_action_type" (fun c => "cost_per_" ++ c) row

end MetaDataFull

namespace MetaAge

/-- `indicator.split(":", 1)[-1] if ":" in indicator else indicator`:
everything after the first colon, or the whole tag when it has none. -/
def indicatorActionType (s : String) : String :=
  match splitFirst (· = ':') s.data with
  | some (_, rest) => String.mk rest
  | Option.none => s

/-- `results_raw[0]["values"][0]["value"]` and the indicator handling of
the `try:` block in `meta_age.flatten`, applied to the first entry `e` of
the native `results` array.  `KeyError` / `IndexError` are caught by the
caller; `TypeError` / `AttributeError` propagate, as in the source. -/
def tryResults (row : PyDict) (e : PyVal) : Except PyErr PyDict := do
  let vals ← pySubscript e "values"
  let v0 ← pyIndex0 vals
  let vv ← pySubscript v0 "value"
  let row := dset row "result" (.num (safe_float vv))
  let ind ← pyDictGet e "indicator" (.str "")
  if truthy ind then do
    let s ← match ind with
            | .str s => Except.ok s
            | _ => Except.error .typeError
    let at0 := indicatorActionType s
    let row := dset row "result_indicator" ind
    let catalogKey := at0 ++ "_catalog_value"
    let standardKey := at0 ++ "_value"
    let v := (dget row catalogKey).getD ((dget row standardKey).getD (.num (.finite 0)))
    pure (dset row "result_value" (.num (safe_float v)))
  else
    pure (dset row "result_value" (.num (.finite 0)))

/-- Set `result` and `result_value` to 0 (the `else` / `except` branch). -/
def zeroResults (row : PyDict) : PyDict :=
  dset (dset row "result" (.num (.finite 0))) "result_value" (.num (.finite 0))

/-- The native `results` block: only a non-empty list enters the `try:`;
`KeyError` / `IndexError` fall back to zeroed fields (all caught
exceptions occur before the first mutation). -/
def resultsStep (row : PyDict) : Except PyErr PyDict :=
  match (dget row "results").getD .none with
  | .vlist (e :: _) =>
      match tryResults row e with
      | .ok row2 => .ok row2
      | .error .keyError => .ok (zeroResults row)
      | .error .indexError => .ok (zeroResults row)
      | .error err => .error err
  | _ => .ok (zeroResults row)

/-- `cpr_raw[0]["values"][0]["value"]` of the `cost_per_result` block. -/
def tryCostPerResult (row : PyDict) (e : PyVal) : Except PyErr PyDict := do
  let vals ← pySubscript e "values"
  let v0 ← pyIndex0 vals
  let vv ← pySubscript v0 "value"
  pure (dset row "cost_per_result_value" (.num (safe_float vv)))

/-- The `cost_per_result` block of `meta_age.flatten`. -/
def costPerResultStep (row : PyDict) : Except PyErr PyDict :=
  match (dget row "cost_per_result").getD .none with
  | .vlist (e :: _) =>
      match tryCostPerResult row e with
      | .ok row2 => .ok row2
      | .error .keyError => .ok (dset row "cost_per_result_value" (.num (.finite 0)))
      | .error .indexError => .ok (dset row "cost_per_result_value" (.num (.finite 0)))
      | .error err => .error err
  | _ => .ok (dset row "cost_per_result_value" (.num (.finite 0)))

/-- The three catalog-ROAS singleton fields of `meta_age.flatten`. -/
def roas_fields : List String := [
  "catalog_segment_value_mobile_purchase_roas",
  "catalog_segment_value_omni_purchase_roas",
  "catalog_segment_value_website_purchase_roas"]

/-- `field.replace("value_", "")`: remove every occurrence of the
substring, left to right, as Python `str.replace` does. -/
def stripValueUnderscore : String → String
  | s => String.mk (go s.data)
where
  go : List Char → List Char
    | [] => []
    | 'v' :: 'a' :: 'l' :: 'u' :: 'e' :: '_' :: rest => go rest
    | c :: rest => c :: go rest

/-- One catalog-ROAS field: `raw[0]["value"]`, degraded to 0 on
`KeyError` / `IndexError`, skipped entirely unless the field holds a
non-empty list. -/
def roasFieldStep (field : String) (row : PyDict) : Except PyErr PyDict :=
  match (dget row field).getD .none with
  | .vlist (e :: _) =>
      let target := stripValueUnderscore field
      match (do
        let v ← pySubscript e "value"
        pure (dset row target (.num (safe_float v))) : Except PyErr PyDict) with
      | .ok row2 => .ok row2
      | .error .keyError => .ok (dset row target (.num (.finite 0)))
      | .error .indexError => .ok (dset row target (.num (.finite 0)))
      | .error err => .error err
  | _ => .ok row

/-- The `for field in roas_fields:` loop. -/
def roasFieldsStep (row : PyDict) : Except PyErr PyDict := do
  let row ← roasFieldStep "catalog_segment_value_mobile_purchase_roas" row
  let row ← roasFieldStep "catalog_segment_value_omni_purchase_roas" row
  roasFieldStep "catalog_segment_value_website_purchase_roas" row

/-- `flatten` from `meta_age.py`: native results, cost_per_result, the
four projection blocks, the catalog-ROAS singletons, purchase_roas and
cost_per_action_type, in source order. -/
def flatten (row : PyDict) : Except PyErr PyDict := do
  let row ← resultsStep row
  let row ← costPerResultStep row
  let row ← flattenField "actions" (fun c => c) row
  let row ← flattenField "action_values" (fun c => c ++ "_value") row
  let row ← flattenField "catalog_segment_actions" (fun c => c ++ "_catalog") row
  let row ← flattenField "catalog_segment_value" (fun c => c ++ "_catalog_value") row
  let row ← roasFieldsStep row
  let row ← flattenPurchaseRoas row
  flattenField "cost_per_action_type" (fun c => "cost_per_" ++ c) row

end MetaAge

-- Scenario C from the spec: native results with catalog value present.
example :
    (MetaAge.flatten
      [("results", .vlist [.dict [("indicator", .str "actions:omni_purchase"),
                                  ("values", .vlist [.dict [("value", .str "7")]])]]),
       ("omni_purchase_catalog_value", .str "140"),
       ("omni_purchase_value", .str "90")]).map (fun r =>
        ((dget r "result", dget r "result_indicator", dget r "result_value"))) =
    .ok (some (.num (.finite 7)), some (.str "actions:omni_purchase"),
         some (.num (.finite 140))) := rfl

-- Without the catalog column the standard value column is used.
example :
    (MetaAge.flatten
      [("results", .vlist [.dict [("indicator", .str "actions:omni_purchase"),
                                  ("values", .vlist [.dict [("value", .str "7")]])]]),
       ("omni_purchase_value", .str "90")]).map (fun r =>
        dget r "result_value") = .ok (some (.num (.finite 90))) := rfl

-- A malformed actions entry aborts meta_data_full.flatten with KeyError.
example : MetaDataFull.flatten [("actions", .vlist [.dict []])]
    = .error .keyError := rfl

-- The same malformed entry aborts meta_age.flatten too.
example : MetaAge.flatten [("actions", .vlist [.dict []])]
    = .error .keyError := rfl

-- An entry missing only "value" degrades to null and continues.
example :
    (MetaDataFull.flatten
      [("objective", .str "LINK_CLICKS"),
       ("actions", .vlist [.dict [("action_type", .str "link_click")]])]).map
      (fun r => dget r "link_click") = .ok (some .none) := rfl

/-! ## Purchase-value aggregation

`calculate_total_purchase_value` from `meta_data_full.py` (lines 247-252)
and `meta_age.py` (lines 335-340).  At this stage a row is a DataFrame
row: a column absent from the whole frame is not present; a column present
for other rows but not this one holds NaN (or None), which `pd.notna`
filters out.  Both conditions contribute nothing to the sum. -/

/-- `pd.notna`: false on `None` and on float NaN. -/
def pdNotna : PyVal → Bool
  | .none => false
  | .num .nan => false
  | _ => true

/-- `purchase_value_columns` from `meta_data_full.py` (also
`meta_region.py`). -/
def purchase_value_columns_full : List String := [
  "offsite_conversion_fb_pixel_purchase_value",
  "omni_purchase_value",
  "onsite_web_purchase_value",
  "onsite_web_app_purchase_value",
  "web_in_store_purchase_value",
  "web_app_in_store_purchase_value",
  "purchase_value"]

/-- `purchase_value_columns` from `meta_age.py`: the standard list plus
the explicitly requested catalog variants. -/
def purchase_value_columns_age : List String :=
  purchase_value_columns_full ++ [
  "omni_purchase_catalog_value",
  "purchase_catalog_value",
  "offsite_conversion_fb_pixel_purchase_catalog_value",
  "onsite_app_purchase_catalog_value",
  "app_custom_event_fb_mobile_purchase_catalog_value"]

/-- `calculate_total_purchase_value`: running total over the candidate
columns, adding `safe_float(row[col])` whenever the column is present and
not NA.  (The generator-based `sum` in `meta_age.py` has identical semantics.) -/
def calculate_total_purchase_value (cols : List String) (row : PyDict) : PyFloat :=
  cols.foldl
    (fun total col =>
      match dget row col with
      | some v => if pdNotna v then pyAdd total (safe_float v) else total
      | Option.none => total)
    (.finite 0)

/-- The claim-side contribution of one candidate column: a column that is
absent, NA, or non-numeric contributes 0, otherwise its parsed value. -/
def purchaseContribution (row : PyDict) (col : String) : PyFloat :=
  match dget row col with
  | some v => if pdNotna v then safe_float v else .finite 0
  | Option.none => .finite 0

/-- The claim-side total: the sum of the per-column contributions. -/
def purchaseContributionSum (cols : List String) (row : PyDict) : PyFloat :=
  (cols.map (purchaseContribution row)).foldl pyAdd (.finite 0)

example : calculate_total_purchase_value purchase_value_columns_full
    [("purchase_value", .str "-5")] = .finite (-5) := rfl
example : calculate_total_purchase_value purchase_value_columns_full
    [("omni_purchase_value", .str "3"), ("purchase_value", .str "2"),
     ("spend", .str "10")] = .finite 5 := rfl
example : calculate_total_purchase_value purchase_value_columns_age
    [("omni_purchase_catalog_value", .str "140")] = .finite 140 := rfl

/-! ## Window-scoped delete-then-insert writer

The `if table_exists:` upsert of all three scripts
(`meta_data_full.py` 375-381, `meta_age.py` 443-450, `meta_region.py`
313-319): inside one `engine.begin()` transaction, `DELETE FROM t WHERE
date_start >= :start AND date_start <= :end` followed by
`df.to_sql(..., if_exists="append")`.  The destination table is a list of
rows; the single transaction is one pure function application.
`date_start` is a TEXT column holding `YYYY-MM-DD` strings, so the SQL
comparison is lexicographic string comparison. -/

/-- A destination row: its `date_start`, its `account_id` and an opaque
stand-in for all remaining columns. -/
structure DBRow where
  date : String
  account : String
  payload : String
deriving DecidableEq

/-- Lexicographic `<=` on code points, the TEXT-column comparison used by
the window DELETE. -/
def strLeL : List Char → List Char → Bool
  | [], _ => true
  | _ :: _, [] => false
  | a :: as, b :: bs =>
      if a.toNat < b.toNat then true
      else if b.toNat < a.toNat then false
      else strLeL as bs

/-- String comparison on the underlying characters. -/
def strLe (a b : String) : Bool := strLeL a.data b.data

/-- `date_start >= :start AND date_start <= :end` — the inclusive window
predicate of the DELETE. -/
def inWindow (start stop : String) (r : DBRow) : Bool :=
  strLe start r.date && strLe r.date stop

/-- The existing-table branch of the writer: one transaction deleting
every row in the inclusive window, then appending all produced rows. -/
def upsert (start stop : String) (table rows : List DBRow) : List DBRow :=
  table.filter (fun r => !inWindow start stop r) ++ rows

/-! ## Per-run orchestration (meta_age)

`meta_age.py` submits one async job per account, polls each, fetches rows
only for accounts whose job reached `Job Completed`, stamps every fetched
row with its `account_id`, and exits before touching the database when no
rows were fetched (`if not all_data: exit()` at line 210, `if df.empty:
exit()` at line 310).  An account is modelled by its id paired with
`Option (List DBRow)`: `none` when submission or polling failed, `some
rows` for a completed job. -/

/-- Stamp `row["account_id"] = account` on each fetched row. -/
def stampAccount (a : String) (rows : List DBRow) : List DBRow :=
  rows.map (fun r => { r with account := a })

/-- `all_data`: the concatenated stamped rows of the completed accounts,
in account order. -/
def allData (accounts : List (String × Option (List DBRow))) : List DBRow :=
  (accounts.map (fun p =>
    match p.2 with
    | some rows => stampAccount p.1 rows
    | Option.none => [])).flatten

/-- One run against an existing table: if nothing was fetched the script
exits before the upsert and the table is untouched; otherwise the window
is replaced by the fetched rows. -/
def runExistingTable (start stop : String) (table : List DBRow)
    (accounts : List (String × Option (List DBRow))) : List DBRow :=
  let rows := allData accounts
  if rows.isEmpty then table else upsert start stop table rows

/-! ## Paginated fetch

`fetch_job_results` from `meta_age.py` (lines 134-163); the module-level
pagination loop of `meta_data_full.py` (lines 58-75) and `meta_region.py`
has the same shape.  The HTTP layer is an oracle from URL to `Option`
(rows of the page, optional next-page URL); `Option.none` is a response
without a `"data"` key (the error case, which breaks the loop keeping the
rows collected so far).  The `while True:` loop is given fuel; every
theorem supplies enough fuel to cover its page chain. -/

/-- The fetch loop: returns the collected rows and the number of page
requests made. -/
def fetch_job_results {α : Type} (api : String → Option (List α × Option String)) :
    Nat → String → List α × Nat
  | 0, _ => ([], 0)
  | fuel + 1, url =>
      match api url with
      | Option.none => ([], 1)
      | some (rows, Option.none) => (rows, 1)
      | some (rows, some next) =>
          let (rest, n) := fetch_job_results api fuel next
          (rows ++ rest, n + 1)

/-- `api` follows the cursor chain from `u` through the given pages
(each with a next cursor) to the URL `v`. -/
inductive Reaches {α : Type} (api : String → Option (List α × Option String)) :
    String → List (List α) → String → Prop
  | refl (u : String) : Reaches api u [] u
  | step {u next v : String} {rows : List α} {rest : List (List α)}
      (h : api u = some (rows, some next))
      (htail : Reaches api next rest v) :
      Reaches api u (rows :: rest) v

/-! ## Well-formedness domains for the totality theorems

`extract_result` and `flatten` are not total: `a["action_type"]` raises an
uncaught `KeyError` when an array entry lacks that key, and a projected
column whose name collides with one of the raw array-field keys can turn
a later `for a in row[key]` loop into iteration over a non-list.  The
predicates below carve out the rows on which no uncaught exception can
occur; they are the hypotheses of the amended totality claims. -/

/-- An actions entry good enough for the result resolvers: an object
carrying an `action_type` key (any value). -/
def entryHasType (v : PyVal) : Bool :=
  match v with
  | .dict d => (dget d "action_type").isSome
  | _ => false

/-- The actions field is absent/falsy, or a list of entries each carrying
`action_type`. -/
def actionsResolverWF (row : PyDict) : Bool :=
  let raw := (dget row "actions").getD .none
  !truthy raw ||
    (match raw with
     | .vlist l => l.all entryHasType
     | _ => false)

/-- The raw array-field keys read by the flatteners; a projected column
that collides with one of these can corrupt a later loop. -/
def reservedKeys : List String := [
  "actions", "action_values", "cost_per_action_type", "purchase_roas",
  "results", "cost_per_result", "catalog_segment_actions",
  "catalog_segment_value",
  "catalog_segment_value_mobile_purchase_roas",
  "catalog_segment_value_omni_purchase_roas",
  "catalog_segment_value_website_purchase_roas"]

/-- None of the five column names derivable from an `action_type` string
(bare, `_value`, `_catalog`, `_catalog_value`, `cost_per_` forms) is one
of the raw array-field keys. -/
def colsOK (s : String) : Bool :=
  let c := replaceDots s
  !(reservedKeys.contains c) &&
  !(reservedKeys.contains (c ++ "_value")) &&
  !(reservedKeys.contains (c ++ "_catalog")) &&
  !(reservedKeys.contains (c ++ "_catalog_value")) &&
  !(reservedKeys.contains ("cost_per_" ++ c))

/-- A projection-loop entry good enough for `flatten`: an object with a
string `action_type` producing non-colliding column names. -/
def entryProjWF (v : PyVal) : Bool :=
  match v with
  | .dict d =>
      match dget d "action_type" with
      | some (.str s) => colsOK s
      | _ => false
  | _ => false

/-- One `if row.get(key): for a in row[key]` projection field: absent or
falsy, or a list of well-formed entries. -/
def projFieldWF (row : PyDict) (key : String) : Bool :=
  let raw := (dget row key).getD .none
  !truthy raw ||
    (match raw with
     | .vlist l => l.all entryProjWF
     | _ => false)

/-- A value is an object. -/
def isDictVal : PyVal → Bool
  | .dict _ => true
  | _ => false

/-- The `purchase_roas` field: absent or falsy, or a list of objects
(only `.get("value")` is called on its entries). -/
def dictsFieldWF (row : PyDict) (key : String) : Bool :=
  let raw := (dget row key).getD .none
  !truthy raw ||
    (match raw with
     | .vlist l => l.all isDictVal
     | _ => false)

/-- The `"values"` member of a native result entry: absent, an object
(`[0]` then raises a caught `KeyError`), an empty list (caught
`IndexError`) or a list headed by an object. -/
def valuesWF : Option PyVal → Bool
  | Option.none => true
  | some (.dict _) => true
  | some (.vlist []) => true
  | some (.vlist (v0 :: _)) => isDictVal v0
  | some _ => false

/-- The `"indicator"` member: absent, a string, or falsy. -/
def indicatorWF : Option PyVal → Bool
  | Option.none => true
  | some (.str _) => true
  | some w => !truthy w

/-- A native result / cost_per_result first entry on which the guarded
`try:` block raises nothing uncaught. -/
def nativeEntryWF (e : PyVal) : Bool :=
  match e with
  | .dict d => valuesWF (dget d "values") && indicatorWF (dget d "indicator")
  | _ => false

/-- A native array field (`results`, `cost_per_result`): anything but a
non-empty list is handled by the zeroing branch; a non-empty list must
have a well-formed first entry. -/
def nativeFieldWF (row : PyDict) (key : String) : Bool :=
  match (dget row key).getD .none with
  | .vlist (e :: _) => nativeEntryWF e
  | _ => true

/-- A catalog-ROAS singleton field: skipped unless a non-empty list, whose
first element must be an object (`raw[0]["value"]`). -/
def roasSingletonWF (row : PyDict) (field : String) : Bool :=
  match (dget row field).getD .none with
  | .vlist (v0 :: _) => isDictVal v0
  | _ => true

namespace MetaDataFull

/-- Rows on which `meta_data_full.flatten` raises nothing uncaught. -/
def rowWF (row : PyDict) : Bool :=
  projFieldWF row "actions" && projFieldWF row "action_values" &&
  dictsFieldWF row "purchase_roas" && projFieldWF row "cost_per_action_type"

end MetaDataFull

namespace MetaAge

/-- Rows on which `meta_age.flatten` raises nothing uncaught. -/
def rowWF (row : PyDict) : Bool :=
  nativeFieldWF row "results" && nativeFieldWF row "cost_per_result" &&
  projFieldWF row "actions" && projFieldWF row "action_values" &&
  projFieldWF row "catalog_segment_actions" &&
  projFieldWF row "catalog_segment_value" &&
  roasSingletonWF row "catalog_segment_value_mobile_purchase_roas" &&
  roasSingletonWF row "catalog_segment_value_omni_purchase_roas" &&
  roasSingletonWF row "catalog_segment_value_website_purchase_roas" &&
  dictsFieldWF row "purchase_roas" && projFieldWF row "cost_per_action_type"

end MetaAge

/-! # Theorems -/

/-! ## Dict lemmas -/

theorem dget_dset_ne (d : PyDict) (k k' : String) (v : PyVal) (h : k ≠ k') :
    dget (dset d k v) k' = dget d k' := by
  induction d with
  | nil => simp [dset, dget, h]
  | cons p rest ih =>
      obtain ⟨k0, v0⟩ := p
      by_cases hk : k0 = k
      · have h2 : k0 ≠ k' := by rw [hk]; exact h
        simp [dset, if_pos hk, dget, h, h2]
      · by_cases hk0 : k0 = k'
        · have hks : ¬k' = k := fun hh => h hh.symm
          simp [dset, dget, hk0, hks]
        · simp [dset, if_neg hk, dget, hk0, ih]

theorem dget_dset_self (d : PyDict) (k : String) (v : PyVal) :
    dget (dset d k v) k = some v := by
  induction d with
  | nil => simp [dset, dget]
  | cons p rest ih =>
      obtain ⟨k0, v0⟩ := p
      by_cases hk : k0 = k
      · simp [dset, if_pos hk, dget]
      · simp [dset, if_neg hk, dget, hk, ih]

/-! ## Claims C2 and C3: the window-scoped writer -/

/-- C2 — When the destination table exists, the writer's single
transaction deletes every row with `date_start` in the inclusive window
and inserts the produced rows; hence writing the same row set twice for
the same window leaves the window-scoped destination content equal (as
lists, so in particular set-equal) after one write and after two. -/
theorem upsert_window_idempotent (start stop : String) (table rows : List DBRow) :
    (upsert start stop (upsert start stop table rows) rows).filter
      (inWindow start stop) =
    (upsert start stop table rows).filter (inWindow start stop) := by
  simp only [upsert, List.filter_append, List.filter_filter]
  have h1 : ∀ r : DBRow,
      (inWindow start stop r && !inWindow start stop r) = false := by
    intro r; cases inWindow start stop r <;> rfl
  have h2 : ∀ l : List DBRow,
      l.filter (fun r => inWindow start stop r && !inWindow start stop r) = [] := by
    intro l
    apply List.filter_eq_nil_iff.mpr
    intro r _
    simp [h1 r]
  simp [h2]

/-- C3 — A write against an existing table leaves every destination row
dated strictly outside the inclusive window untouched: the out-of-window
content of the result is exactly the old out-of-window content followed
by the out-of-window part of the inserted rows (empty when, as produced,
all inserted rows lie inside the window).  The delete clause never
matches such rows and the insert only appends. -/
theorem upsert_outside_window_frame (start stop : String) (table rows : List DBRow) :
    (upsert start stop table rows).filter (fun r => !inWindow start stop r) =
    table.filter (fun r => !inWindow start stop r) ++
      rows.filter (fun r => !inWindow start stop r) := by
  simp only [upsert, List.filter_append, List.filter_filter]
  have h1 : ∀ r : DBRow,
      (!inWindow start stop r && !inWindow start stop r) = (!inWindow start stop r) := by
    intro r; cases inWindow start stop r <;> rfl
  simp [h1]

/-! ## Claim C9: paginated fetch -/

/-- C9 — Following a chain of cursored pages, the fetch loop requests
each page exactly once and concatenates the rows in order: if the chain
ends in a page without a cursor its rows are appended and the loop stops
after `pages.length + 1` requests; if the final request fails (no `data`
key) the loop stops there, returning the rows of all prior pages rather
than discarding them or raising. -/
theorem fetch_paginates_and_keeps_prior_pages {α : Type}
    (api : String → Option (List α × Option String))
    (u v : String) (pages : List (List α)) (fuel : Nat)
    (hreach : Reaches api u pages v) (hfuel : pages.length + 1 ≤ fuel) :
    (api v = Option.none →
      fetch_job_results api fuel u = (pages.flatten, pages.length + 1)) ∧
    (∀ last : List α, api v = some (last, Option.none) →
      fetch_job_results api fuel u = (pages.flatten ++ last, pages.length + 1)) := by
  induction hreach generalizing fuel with
  | refl u =>
      obtain ⟨f, rfl⟩ : ∃ f, fuel = f + 1 := by
        cases fuel with
        | zero => omega
        | succ f => exact ⟨f, rfl⟩
      constructor
      · intro herr
        simp [fetch_job_results, herr]
      · intro last hlast
        simp [fetch_job_results, hlast]
  | step h htail ih =>
      rename_i u next v rows rest
      obtain ⟨f, rfl⟩ : ∃ f, fuel = f + 1 := by
        cases fuel with
        | zero => simp at hfuel
        | succ f => exact ⟨f, rfl⟩
      have hf : rest.length + 1 ≤ f := by
        simp only [List.length_cons] at hfuel
        omega
      obtain ⟨ih1, ih2⟩ := ih f hf
      constructor
      · intro herr
        simp [fetch_job_results, h, ih1 herr]
      · intro last hlast
        simp [fetch_job_results, h, ih2 last hlast]

/-- Witness for C9, instantiating Scenario D: a first page of 50 rows
with cursor `"c1"`, a second of 30 rows without one — 80 rows in exactly
two requests; and, against an API whose second request fails, the 50
first-page rows are preserved. -/
theorem fetch_paginates_and_keeps_prior_pages_witness :
    fetch_job_results
      (fun url => if url = "jobs/123/insights" then
                    some (List.replicate 50 (0 : Nat), some "c1")
                  else if url = "c1" then some (List.replicate 30 1, Option.none)
                  else Option.none)
      5 "jobs/123/insights"
      = (List.replicate 50 0 ++ List.replicate 30 1, 2) ∧
    (List.replicate 50 (0 : Nat) ++ List.replicate 30 1).length = 80 ∧
    fetch_job_results
      (fun url => if url = "jobs/123/insights" then
                    some (List.replicate 50 (0 : Nat), some "c1")
                  else Option.none)
      5 "jobs/123/insights"
      = (List.replicate 50 0, 2) := by
  refine ⟨?_, by decide, ?_⟩
  · have h := (fetch_paginates_and_keeps_prior_pages
      (fun url => if url = "jobs/123/insights" then
                    some (List.replicate 50 (0 : Nat), some "c1")
                  else if url = "c1" then some (List.replicate 30 1, Option.none)
                  else Option.none)
      "jobs/123/insights" "c1" [List.replicate 50 0] 5
      (Reaches.step (by decide) (Reaches.refl "c1")) (by decide)).2
      (List.replicate 30 1) (by decide)
    simpa using h
  · have h := (fetch_paginates_and_keeps_prior_pages
      (fun url => if url = "jobs/123/insights" then
                    some (List.replicate 50 (0 : Nat), some "c1")
                  else Option.none)
      "jobs/123/insights" "c1" [List.replicate 50 0] 5
      (Reaches.step (by decide) (Reaches.refl "c1")) (by decide)).1
      (by decide)
    simpa using h

/-! ## Claim C1: no first-action fallback (meta_region violates it) -/

/-- C1 — The claim fails on `meta_region.py`: its `extract_result` has no
table entry for the objective `"SOME_NEW_OBJECTIVE"`, yet on a row whose
actions list holds a single `link_click` action valued `"50"` it returns
50 — the value of the first action — instead of the 0 the claim (and the
spec, and the `meta_data_full.py` version) requires.  The fixed
`meta_data_full.py` resolver returns 0 on the same row. -/
theorem region_extract_result_first_action_fallback :
    MetaRegion.lookupTarget (.str "SOME_NEW_OBJECTIVE") = Option.none ∧
    MetaRegion.extract_result
      [("objective", .str "SOME_NEW_OBJECTIVE"),
       ("actions", .vlist [.dict [("action_type", .str "link_click"),
                                  ("value", .str "50")]])] = .ok (.finite 50) ∧
    MetaDataFull.extract_result
      [("objective", .str "SOME_NEW_OBJECTIVE"),
       ("actions", .vlist [.dict [("action_type", .str "link_click"),
                                  ("value", .str "50")]])] = .ok (.finite 0) ∧
    PyFloat.finite 50 ≠ PyFloat.finite 0 := by
  refine ⟨rfl, rfl, rfl, ?_⟩
  decide

/-! ## Claim C7: awareness objectives ignore actions (meta_region violates it) -/

/-- C7 — The claim fails on `meta_region.py`: for the awareness objective
`"REACH"` its table maps to the target action type `"reach"`, and that
scan runs BEFORE the awareness special case, so an action literally typed
`"reach"` (value `"5"`) preempts the row's reach field (`"10"`): the
result depends on the actions list.  The `meta_data_full.py` version
checks awareness first and returns 10 on both rows. -/
theorem region_awareness_depends_on_actions :
    MetaRegion.extract_result
      [("objective", .str "REACH"), ("reach", .str "10"),
       ("actions", .vlist [.dict [("action_type", .str "reach"),
                                  ("value", .str "5")]])] = .ok (.finite 5) ∧
    MetaRegion.extract_result
      [("objective", .str "REACH"), ("reach", .str "10")] = .ok (.finite 10) ∧
    MetaDataFull.extract_result
      [("objective", .str "REACH"), ("reach", .str "10"),
       ("actions", .vlist [.dict [("action_type", .str "reach"),
                                  ("value", .str "5")]])] = .ok (.finite 10) ∧
    PyFloat.finite 5 ≠ PyFloat.finite 10 := by
  refine ⟨rfl, rfl, rfl, ?_⟩
  decide

/-! ## Claim C4: totality of the result resolver -/

/-- C4 counterexample — `extract_result` does not always return a finite
number and can raise: the action value `"inf"` passes `float()` and is
returned as positive infinity, and an action entry missing its
`action_type` key raises an uncaught `KeyError`. -/
theorem extract_result_not_total_counterexample :
    MetaDataFull.extract_result
      [("objective", .str "OUTCOME_SALES"),
       ("actions", .vlist [.dict [("action_type", .str "omni_purchase"),
                                  ("value", .str "inf")]])] = .ok .inf ∧
    PyFloat.isFinite .inf = false ∧
    MetaDataFull.extract_result
      [("objective", .str "OUTCOME_SALES"),
       ("actions", .vlist [.dict []])] = .error .keyError := by
  exact ⟨rfl, rfl, rfl⟩

/-! ## Claim C5: totality of the flatteners -/

/-- C5 counterexample — one malformed actions entry (an object missing
`action_type`) aborts both flatteners with an uncaught `KeyError` instead
of degrading to 0 and continuing. -/
theorem flatten_not_total_counterexample :
    MetaDataFull.flatten [("actions", .vlist [.dict []])] = .error .keyError ∧
    MetaAge.flatten [("actions", .vlist [.dict []])] = .error .keyError := by
  exact ⟨rfl, rfl⟩

/-! ## Claim C8: total_purchase_value -/

/-- C8 counterexample — `total_purchase_value` is not non-negative for
every row: a candidate column holding `"-5"` parses as a number and makes
the total negative (the sum-of-contributions part survives; only the
unconditional `≥ 0` part is false). -/
theorem total_purchase_value_negative_counterexample :
    calculate_total_purchase_value purchase_value_columns_full
      [("purchase_value", .str "-5")] = .finite (-5) ∧
    pyLe (.finite 0) (.finite (-5)) = false := by
  exact ⟨rfl, rfl⟩

/-! ## Claim C10: a failed account's window rows after a mixed run -/

/-- C10 counterexample — the claim omits the empty-fetch guard: when the
only completed job returns zero rows, `if not all_data: exit()` fires
before the write, so the delete never runs and the failed account's
previously persisted in-window rows survive, contrary to the claim. -/
theorem failed_account_rows_survive_empty_fetch :
    runExistingTable "2026-01-01" "2026-01-31"
      [⟨"2026-01-05", "act_A", "old"⟩]
      [("act_A", Option.none), ("act_B", some [])]
      = [⟨"2026-01-05", "act_A", "old"⟩] ∧
    inWindow "2026-01-01" "2026-01-31" ⟨"2026-01-05", "act_A", "old"⟩ = true := by
  exact ⟨rfl, rfl⟩

theorem pyAdd_zero_right (x : PyFloat) : pyAdd x (.finite 0) = x := by
  cases x with
  | finite q => simp [pyAdd, qAdd_eq]
  | inf => rfl
  | ninf => rfl
  | nan => rfl

theorem pyAdd_nonneg {a b : PyFloat} (ha : pyLe (.finite 0) a = true)
    (hb : pyLe (.finite 0) b = true) : pyLe (.finite 0) (pyAdd a b) = true := by
  cases a with
  | finite qa =>
      cases b with
      | finite qb =>
          simp only [pyLe, decide_eq_true_eq] at ha hb
          simp only [pyAdd, pyLe, decide_eq_true_eq, qAdd_eq]
          exact add_nonneg ha hb
      | inf => rfl
      | ninf => exact absurd hb (by simp [pyLe])
      | nan => exact absurd hb (by simp [pyLe])
  | inf =>
      cases b with
      | finite qb => rfl
      | inf => rfl
      | ninf => exact absurd hb (by simp [pyLe])
      | nan => exact absurd hb (by simp [pyLe])
  | ninf => exact absurd ha (by simp [pyLe])
  | nan => exact absurd ha (by simp [pyLe])

theorem foldl_pyAdd_nonneg :
    ∀ (l : List PyFloat) (acc : PyFloat), pyLe (.finite 0) acc = true →
      (∀ x ∈ l, pyLe (.finite 0) x = true) →
      pyLe (.finite 0) (l.foldl pyAdd acc) = true := by
  intro l
  induction l with
  | nil => intro acc hacc _; exact hacc
  | cons x xs ih =>
      intro acc hacc hmem
      simp only [List.foldl_cons]
      exact ih (pyAdd acc x) (pyAdd_nonneg hacc (hmem x (List.mem_cons_self x xs)))
        (fun y hy => hmem y (List.mem_cons_of_mem x hy))

theorem calc_total_eq_contribution_sum (cols : List String) (row : PyDict) :
    calculate_total_purchase_value cols row = purchaseContributionSum cols row := by
  unfold calculate_total_purchase_value purchaseContributionSum
  suffices h : ∀ acc : PyFloat,
      cols.foldl
        (fun total col =>
          match dget row col with
          | some v => if pdNotna v then pyAdd total (safe_float v) else total
          | Option.none => total) acc =
      (cols.map (purchaseContribution row)).foldl pyAdd acc from h _
  induction cols with
  | nil => intro acc; rfl
  | cons c cs ih =>
      intro acc
      simp only [List.foldl_cons, List.map_cons]
      have hstep :
          (match dget row c with
           | some v => if pdNotna v then pyAdd acc (safe_float v) else acc
           | Option.none => acc) =
          pyAdd acc (purchaseContribution row c) := by
        unfold purchaseContribution
        match dget row c with
        | Option.none => exact (pyAdd_zero_right acc).symm
        | some v =>
            by_cases hv : pdNotna v = true
            · simp [hv]
            · simp only [Bool.not_eq_true] at hv
              simp [hv, pyAdd_zero_right]
      rw [hstep]
      exact ih (pyAdd acc (purchaseContribution row c))

/-- C8 amended — for every row, `total_purchase_value` equals the sum,
over exactly the configured candidate-column list of the respective
script, of the per-column contributions (absent, NA or non-numeric
columns contributing 0); and it is non-negative whenever each
contribution is non-negative (true of the API's purchase values, but not
of arbitrary rows — see the counterexample). -/
theorem total_purchase_value_eq_sum_and_nonneg (row : PyDict)
    (hfull : purchase_value_columns_full.all
      (fun c => pyLe (.finite 0) (purchaseContribution row c)) = true)
    (hage : purchase_value_columns_age.all
      (fun c => pyLe (.finite 0) (purchaseContribution row c)) = true) :
    calculate_total_purchase_value purchase_value_columns_full row =
      purchaseContributionSum purchase_value_columns_full row ∧
    pyLe (.finite 0)
      (calculate_total_purchase_value purchase_value_columns_full row) = true ∧
    calculate_total_purchase_value purchase_value_columns_age row =
      purchaseContributionSum purchase_value_columns_age row ∧
    pyLe (.finite 0)
      (calculate_total_purchase_value purchase_value_columns_age row) = true := by
  have hmemfull : ∀ x ∈ purchase_value_columns_full.map (purchaseContribution row),
      pyLe (.finite 0) x = true := by
    intro x hx
    obtain ⟨c, hc, rfl⟩ := List.mem_map.mp hx
    exact (List.all_eq_true.mp hfull) c hc
  have hmemage : ∀ x ∈ purchase_value_columns_age.map (purchaseContribution row),
      pyLe (.finite 0) x = true := by
    intro x hx
    obtain ⟨c, hc, rfl⟩ := List.mem_map.mp hx
    exact (List.all_eq_true.mp hage) c hc
  refine ⟨calc_total_eq_contribution_sum _ _, ?_, calc_total_eq_contribution_sum _ _, ?_⟩
  · rw [calc_total_eq_contribution_sum]
    exact foldl_pyAdd_nonneg _ _ rfl hmemfull
  · rw [calc_total_eq_contribution_sum]
    exact foldl_pyAdd_nonneg _ _ rfl hmemage

/-- Witness for the amended C8 at a concrete row holding `"3"` and `"2"`
in two candidate columns: the total is 5 and non-negative. -/
theorem total_purchase_value_eq_sum_and_nonneg_witness :
    (purchase_value_columns_full.all
      (fun c => pyLe (.finite 0) (purchaseContribution
        [("omni_purchase_value", .str "3"), ("purchase_value", .str "2")] c)) = true) ∧
    pyLe (.finite 0)
      (calculate_total_purchase_value purchase_value_columns_full
        [("omni_purchase_value", .str "3"), ("purchase_value", .str "2")]) = true ∧
    calculate_total_purchase_value purchase_value_columns_full
      [("omni_purchase_value", .str "3"), ("purchase_value", .str "2")] = .finite 5 := by
  refine ⟨by decide, ?_, by decide⟩
  exact (total_purchase_value_eq_sum_and_nonneg
    [("omni_purchase_value", .str "3"), ("purchase_value", .str "2")]
    (by decide) (by decide)).2.1

theorem mem_allData {accounts : List (String × Option (List DBRow))} {r : DBRow}
    (hr : r ∈ allData accounts) :
    ∃ p ∈ accounts, (∃ rows0, p.2 = some rows0) ∧ r.account = p.1 := by
  unfold allData at hr
  rw [List.mem_flatten] at hr
  obtain ⟨l, hl, hrl⟩ := hr
  rw [List.mem_map] at hl
  obtain ⟨p, hp, rfl⟩ := hl
  match hp2 : p.2 with
  | some rows0 =>
      rw [hp2] at hrl
      obtain ⟨x, _, rfl⟩ := List.mem_map.mp hrl
      exact ⟨p, hp, ⟨rows0, hp2⟩, rfl⟩
  | Option.none =>
      rw [hp2] at hrl
      simp at hrl

/-- C10 amended — in a run against an existing table where account `A`
produced no rows (its pair carries `none`) and the run fetched at least
one row overall (so the script does not exit at the empty-data guard
before writing), the final table holds no in-window row for `A`: the
account-blind window DELETE removes `A`'s previously persisted rows and
only rows stamped with completed accounts are re-inserted. -/
theorem failed_account_window_rows_removed (start stop : String)
    (table : List DBRow) (accounts : List (String × Option (List DBRow)))
    (A : String)
    (hA : ∀ p ∈ accounts, p.1 = A → p.2 = Option.none)
    (hne : allData accounts ≠ []) :
    ∀ r ∈ runExistingTable start stop table accounts,
      r.account = A → inWindow start stop r = false := by
  intro r hr hacc
  unfold runExistingTable at hr
  rw [if_neg (by simpa using hne)] at hr
  unfold upsert at hr
  rcases List.mem_append.mp hr with hfil | hnew
  · simpa using (List.mem_filter.mp hfil).2
  · obtain ⟨p, hp, ⟨rows0, hp2⟩, hracc⟩ := mem_allData hnew
    have : p.2 = Option.none := hA p hp (by rw [← hracc, hacc])
    rw [hp2] at this
    cases this

/-- Witness for the amended C10: account `act_A` failed, `act_B`
completed with one in-window row, the old table held an old in-window
`act_A` row; after the run no `act_A` row in the window remains. -/
theorem failed_account_window_rows_removed_witness :
    (∀ p ∈ [("act_A", (Option.none : Option (List DBRow))),
            ("act_B", some [⟨"2026-01-02", "", "new"⟩])],
       p.1 = "act_A" → p.2 = Option.none) ∧
    allData [("act_A", (Option.none : Option (List DBRow))),
             ("act_B", some [⟨"2026-01-02", "", "new"⟩])] ≠ [] ∧
    (∀ r ∈ runExistingTable "2026-01-01" "2026-01-31"
        [⟨"2026-01-05", "act_A", "old"⟩]
        [("act_A", (Option.none : Option (List DBRow))),
         ("act_B", some [⟨"2026-01-02", "", "new"⟩])],
       r.account = "act_A" → inWindow "2026-01-01" "2026-01-31" r = false) := by
  refine ⟨by decide, by decide, ?_⟩
  exact failed_account_window_rows_removed "2026-01-01" "2026-01-31"
    [⟨"2026-01-05", "act_A", "old"⟩]
    [("act_A", Option.none), ("act_B", some [⟨"2026-01-02", "", "new"⟩])]
    "act_A" (by decide) (by decide)

/-! ## Claim C6: native pre-aggregated results (meta_age) -/

/-- C6 — When a row carries a non-empty native `results` array whose
first entry is an object with a non-empty values list and a non-empty
string indicator, the results stage of `meta_age.flatten` sets `result`
to the coerced first value, `result_indicator` to the indicator tag, and
`result_value` to the coerced lookup of the
`<action_type>_catalog_value` column, falling back to
`<action_type>_value`, defaulting to 0, where the action type is the part
of the indicator after its first colon.  (The key-distinctness hypotheses
rule out pathological indicators whose derived column names collide with
the freshly written `result` fields.) -/
theorem native_results_resolution (row : PyDict) (d : List (String × PyVal))
    (rs : List PyVal) (d0 : List (String × PyVal)) (vs : List PyVal)
    (vv : PyVal) (ind : String)
    (hres : dget row "results" = some (.vlist (.dict d :: rs)))
    (hvals : dget d "values" = some (.vlist (.dict d0 :: vs)))
    (hvv : dget d0 "value" = some vv)
    (hind : dget d "indicator" = some (.str ind))
    (hne : ind ≠ "")
    (hck1 : MetaAge.indicatorActionType ind ++ "_catalog_value" ≠ "result")
    (hck2 : MetaAge.indicatorActionType ind ++ "_catalog_value" ≠ "result_indicator")
    (hsk1 : MetaAge.indicatorActionType ind ++ "_value" ≠ "result")
    (hsk2 : MetaAge.indicatorActionType ind ++ "_value" ≠ "result_indicator") :
    MetaAge.resultsStep row = .ok
      (dset (dset (dset row "result" (.num (safe_float vv)))
        "result_indicator" (.str ind))
        "result_value" (.num (safe_float
          ((dget row (MetaAge.indicatorActionType ind ++ "_catalog_value")).getD
            ((dget row (MetaAge.indicatorActionType ind ++ "_value")).getD
              (.num (.finite 0))))))) := by
  have hie : ind.isEmpty = false := by
    cases h : ind.isEmpty
    · rfl
    · exact absurd ((String.isEmpty_iff ind).mp h) hne
  have htr : truthy (.str ind) = true := by simp [truthy, hie]
  have hget1 : dget (dset (dset row "result" (.num (safe_float vv)))
        "result_indicator" (.str ind))
        (MetaAge.indicatorActionType ind ++ "_catalog_value") =
      dget row (MetaAge.indicatorActionType ind ++ "_catalog_value") := by
    rw [dget_dset_ne _ _ _ _ (Ne.symm hck2), dget_dset_ne _ _ _ _ (Ne.symm hck1)]
  have hget2 : dget (dset (dset row "result" (.num (safe_float vv)))
        "result_indicator" (.str ind))
        (MetaAge.indicatorActionType ind ++ "_value") =
      dget row (MetaAge.indicatorActionType ind ++ "_value") := by
    rw [dget_dset_ne _ _ _ _ (Ne.symm hsk2), dget_dset_ne _ _ _ _ (Ne.symm hsk1)]
  unfold MetaAge.resultsStep
  rw [hres]
  simp only [Option.getD_some]
  unfold MetaAge.tryResults
  simp only [pySubscript, hvals, pyIndex0, hvv, pyDictGet, hind, Option.getD_some,
    htr, if_true, bind, Except.bind, pure, Except.pure, hget1, hget2]

/-- Witness for C6, Scenario C:
`native_results=[{indicator:"actions:omni_purchase", values:[{value:"7"}]}]`
with `omni_purchase_catalog_value="140"` and `omni_purchase_value="90"`
yields `result=7`, `result_indicator="actions:omni_purchase"`,
`result_value=140`, both at the results stage and through the full
`meta_age.flatten`. -/
theorem native_results_resolution_witness :
    MetaAge.resultsStep
      [("results", .vlist [.dict [("indicator", .str "actions:omni_purchase"),
                                  ("values", .vlist [.dict [("value", .str "7")]])]]),
       ("omni_purchase_catalog_value", .str "140"),
       ("omni_purchase_value", .str "90")] = .ok
      (dset (dset (dset
        [("results", .vlist [.dict [("indicator", .str "actions:omni_purchase"),
                                    ("values", .vlist [.dict [("value", .str "7")]])]]),
         ("omni_purchase_catalog_value", .str "140"),
         ("omni_purchase_value", .str "90")]
        "result" (.num (safe_float (.str "7"))))
        "result_indicator" (.str "actions:omni_purchase"))
        "result_value" (.num (safe_float
          ((dget
            [("results", .vlist [.dict [("indicator", .str "actions:omni_purchase"),
                                        ("values", .vlist [.dict [("value", .str "7")]])]]),
             ("omni_purchase_catalog_value", .str "140"),
             ("omni_purchase_value", .str "90")]
            (MetaAge.indicatorActionType "actions:omni_purchase" ++ "_catalog_value")).getD
            ((dget
              [("results", .vlist [.dict [("indicator", .str "actions:omni_purchase"),
                                          ("values", .vlist [.dict [("value", .str "7")]])]]),
               ("omni_purchase_catalog_value", .str "140"),
               ("omni_purchase_value", .str "90")]
              (MetaAge.indicatorActionType "actions:omni_purchase" ++ "_value")).getD
              (.num (.finite 0))))))) ∧
    (MetaAge.flatten
      [("results", .vlist [.dict [("indicator", .str "actions:omni_purchase"),
                                  ("values", .vlist [.dict [("value", .str "7")]])]]),
       ("omni_purchase_catalog_value", .str "140"),
       ("omni_purchase_value", .str "90")]).map (fun r =>
        (dget r "result", dget r "result_indicator", dget r "result_value")) =
      .ok (some (.num (.finite 7)), some (.str "actions:omni_purchase"),
           some (.num (.finite 140))) := by
  constructor
  · exact native_results_resolution
      [("results", .vlist [.dict [("indicator", .str "actions:omni_purchase"),
                                  ("values", .vlist [.dict [("value", .str "7")]])]]),
       ("omni_purchase_catalog_value", .str "140"),
       ("omni_purchase_value", .str "90")]
      [("indicator", .str "actions:omni_purchase"),
       ("values", .vlist [.dict [("value", .str "7")]])]
      [] [("value", .str "7")] [] (.str "7") "actions:omni_purchase"
      rfl rfl rfl rfl (by decide) (by decide) (by decide) (by decide) (by decide)
  · rfl

/-! ## Claim C4 (amended): resolver totality on well-formed actions -/

theorem scanTarget_total (l : List PyVal) (t : String)
    (hl : ∀ a ∈ l, entryHasType a = true) :
    ∃ r, MetaDataFull.scanTarget l t = .ok r := by
  induction l with
  | nil => exact ⟨Option.none, rfl⟩
  | cons a rest ih =>
      have ha := hl a (List.mem_cons_self a rest)
      cases a with
      | dict d =>
          simp only [entryHasType] at ha
          obtain ⟨tv, htv⟩ := Option.isSome_iff_exists.mp ha
          by_cases he : pyEqStr tv t = true
          · refine ⟨some (safe_float ((dget d "value").getD .none)), ?_⟩
            simp [MetaDataFull.scanTarget, pySubscript, htv, he, pyDictGet,
              bind, Except.bind, pure, Except.pure]
          · obtain ⟨r, hr⟩ := ih (fun a ha2 => hl a (List.mem_cons_of_mem _ ha2))
            refine ⟨r, ?_⟩
            simp only [Bool.not_eq_true] at he
            simp [MetaDataFull.scanTarget, pySubscript, htv, he,
              bind, Except.bind, hr]
      | none => simp [entryHasType] at ha
      | str s => simp [entryHasType] at ha
      | num x => simp [entryHasType] at ha
      | vlist l2 => simp [entryHasType] at ha

theorem scanTargets_total (l : List PyVal)
    (hl : ∀ a ∈ l, entryHasType a = true) :
    ∀ ts : List String, ∃ r, MetaDataFull.scanTargets (.vlist l) ts = .ok r := by
  intro ts
  induction ts with
  | nil => exact ⟨Option.none, rfl⟩
  | cons t rest ih =>
      obtain ⟨r, hr⟩ := scanTarget_total l t hl
      cases r with
      | some x =>
          refine ⟨some x, ?_⟩
          simp [MetaDataFull.scanTargets, pyIter, bind, Except.bind, hr, pure,
            Except.pure]
      | none =>
          obtain ⟨r2, hr2⟩ := ih
          refine ⟨r2, ?_⟩
          simp [MetaDataFull.scanTargets, pyIter, bind, Except.bind, hr, hr2]

theorem actionsResolverWF_elim (row : PyDict)
    (hWF : actionsResolverWF row = true) :
    ∃ l, (if truthy ((dget row "actions").getD .none)
          then (dget row "actions").getD .none else PyVal.vlist []) = .vlist l ∧
      ∀ a ∈ l, entryHasType a = true := by
  unfold actionsResolverWF at hWF
  by_cases ht : truthy ((dget row "actions").getD .none) = true
  · rw [if_pos ht]
    simp only [ht, Bool.not_true, Bool.false_or] at hWF
    cases hraw : (dget row "actions").getD .none with
    | vlist l =>
        rw [hraw] at hWF
        exact ⟨l, rfl, List.all_eq_true.mp hWF⟩
    | none => rw [hraw] at hWF; cases hWF
    | str s => rw [hraw] at hWF; cases hWF
    | num x => rw [hraw] at hWF; cases hWF
    | dict d => rw [hraw] at hWF; cases hWF
  · rw [if_neg ht]
    exact ⟨[], rfl, by intro a ha; cases ha⟩

theorem fallbackResult_total (row : PyDict) (l : List PyVal)
    (hlWF : ∀ a ∈ l, entryHasType a = true) :
    ∃ z, MetaRegion.fallbackResult row (.vlist l) = .ok z := by
  by_cases haw : MetaDataFull.AWARENESS_OBJECTIVES.any
      (fun s => pyEqStr ((dget row "objective").getD (.str "")) s) = true
  · exact ⟨safe_float ((dget row "reach").getD .none),
      by simp [MetaRegion.fallbackResult, haw, pure, Except.pure]⟩
  · cases l with
    | nil =>
        exact ⟨.finite 0, by simp [MetaRegion.fallbackResult, haw, truthy,
          pure, Except.pure]⟩
    | cons a rest =>
        have ha := hlWF a (List.mem_cons_self a rest)
        cases a with
        | dict d =>
            exact ⟨safe_float ((dget d "value").getD .none),
              by simp [MetaRegion.fallbackResult, haw, truthy,
                pyIndex0, pyDictGet, bind, Except.bind, pure, Except.pure]⟩
        | none => simp [entryHasType] at ha
        | str s => simp [entryHasType] at ha
        | num x => simp [entryHasType] at ha
        | vlist l2 => simp [entryHasType] at ha

theorem extract_result_full_total (row : PyDict)
    (hWF : actionsResolverWF row = true) :
    ∃ x, MetaDataFull.extract_result row = .ok x := by
  obtain ⟨l, hl, hlWF⟩ := actionsResolverWF_elim row hWF
  by_cases haw : MetaDataFull.AWARENESS_OBJECTIVES.any
      (fun s => pyEqStr ((dget row "objective").getD (.str "")) s) = true
  · exact ⟨safe_float ((dget row "reach").getD .none),
      by simp [MetaDataFull.extract_result, haw]⟩
  · obtain ⟨r, hr⟩ := scanTargets_total l hlWF
      (MetaDataFull.lookupTargets ((dget row "objective").getD (.str "")))
    cases r with
    | some x =>
        exact ⟨x, by simp [MetaDataFull.extract_result, haw, hl, hr,
          bind, Except.bind, pure, Except.pure]⟩
    | none =>
        exact ⟨.finite 0, by simp [MetaDataFull.extract_result, haw, hl, hr,
          bind, Except.bind, pure, Except.pure]⟩

theorem extract_result_region_total (row : PyDict)
    (hWF : actionsResolverWF row = true) :
    ∃ y, MetaRegion.extract_result row = .ok y := by
  obtain ⟨l, hl, hlWF⟩ := actionsResolverWF_elim row hWF
  obtain ⟨z, hz⟩ := fallbackResult_total row l hlWF
  cases hT : MetaRegion.lookupTarget ((dget row "objective").getD (.str "")) with
  | some target =>
      obtain ⟨r1, hr1⟩ := scanTarget_total l target hlWF
      cases r1 with
      | some x =>
          exact ⟨x, by simp [MetaRegion.extract_result, hT, hl, hr1,
            pyIter, bind, Except.bind, pure, Except.pure]⟩
      | none =>
          by_cases hs : MetaRegion.SALES_OBJECTIVES.any
              (fun s => pyEqStr ((dget row "objective").getD (.str "")) s) = true
          · obtain ⟨r2, hr2⟩ := scanTarget_total l "omni_purchase" hlWF
            cases r2 with
            | some x =>
                exact ⟨x, by simp [MetaRegion.extract_result, hT, hl, hr1, hr2,
                  hs, pyIter, bind, Except.bind, pure, Except.pure]⟩
            | none =>
                exact ⟨z, by simp [MetaRegion.extract_result, hT, hl, hr1, hr2,
                  hs, hz, pyIter, bind, Except.bind, pure, Except.pure]⟩
          · exact ⟨z, by simp [MetaRegion.extract_result, hT, hl, hr1,
              hs, hz, pyIter, bind, Except.bind, pure, Except.pure]⟩
  | none =>
      exact ⟨z, by simp [MetaRegion.extract_result, hT, hl, hz,
        pyIter, bind, Except.bind, pure, Except.pure]⟩

/-- C4 amended — on every row whose actions field is absent, falsy, or a
list of objects each carrying an `action_type` key, both result resolvers
are total: they return a number (through `safe_float`, which maps absent,
empty or unparsable values to 0) and raise nothing.  (Without that
proviso a missing `action_type` raises `KeyError`, and the returned
number need not be finite — see the counterexample.) -/
theorem extract_result_total_on_wf_actions (row : PyDict)
    (hWF : actionsResolverWF row = true) :
    (∃ x, MetaDataFull.extract_result row = .ok x) ∧
    (∃ y, MetaRegion.extract_result row = .ok y) :=
  ⟨extract_result_full_total row hWF, extract_result_region_total row hWF⟩

/-- Witness for the amended C4: a well-formed row (unknown objective, one
action with an unparsable value) on which both resolvers return without
raising. -/
theorem extract_result_total_on_wf_actions_witness :
    (actionsResolverWF
      [("objective", .str "SOME_NEW_OBJECTIVE"),
       ("actions", .vlist [.dict [("action_type", .str "link_click"),
                                  ("value", .str "n/a")]])] = true) ∧
    ((∃ x, MetaDataFull.extract_result
      [("objective", .str "SOME_NEW_OBJECTIVE"),
       ("actions", .vlist [.dict [("action_type", .str "link_click"),
                                  ("value", .str "n/a")]])] = .ok x) ∧
     (∃ y, MetaRegion.extract_result
      [("objective", .str "SOME_NEW_OBJECTIVE"),
       ("actions", .vlist [.dict [("action_type", .str "link_click"),
                                  ("value", .str "n/a")]])] = .ok y)) := by
  refine ⟨by decide, ?_⟩
  exact extract_result_total_on_wf_actions
    [("objective", .str "SOME_NEW_OBJECTIVE"),
     ("actions", .vlist [.dict [("action_type", .str "link_click"),
                                ("value", .str "n/a")]])] (by decide)

/-! ## Claim C5 (amended): flattener totality on well-formed rows -/

theorem ne_of_reserved {k k' : String} (hk : reservedKeys.contains k = true)
    (hk' : reservedKeys.contains k' = false) : k ≠ k' := by
  intro h
  rw [h, hk'] at hk
  cases hk

theorem colsOK_elim {s : String} (h : colsOK s = true) :
    reservedKeys.contains (replaceDots s) = false ∧
    reservedKeys.contains (replaceDots s ++ "_value") = false ∧
    reservedKeys.contains (replaceDots s ++ "_catalog") = false ∧
    reservedKeys.contains (replaceDots s ++ "_catalog_value") = false ∧
    reservedKeys.contains ("cost_per_" ++ replaceDots s) = false := by
  unfold colsOK at h
  simp only [Bool.and_eq_true, Bool.not_eq_eq_eq_not, Bool.not_true] at h
  exact ⟨h.1.1.1.1, h.1.1.1.2, h.1.1.2, h.1.2, h.2⟩

theorem projFieldWF_elim {row : PyDict} {key : String}
    (hWF : projFieldWF row key = true)
    (ht : truthy ((dget row key).getD .none) = true) :
    ∃ l, (dget row key).getD .none = .vlist l ∧ ∀ a ∈ l, entryProjWF a = true := by
  unfold projFieldWF at hWF
  simp only [ht, Bool.not_true, Bool.false_or] at hWF
  cases hraw : (dget row key).getD .none with
  | vlist l =>
      rw [hraw] at hWF
      exact ⟨l, rfl, List.all_eq_true.mp hWF⟩
  | none => rw [hraw] at hWF; cases hWF
  | str s => rw [hraw] at hWF; cases hWF
  | num x => rw [hraw] at hWF; cases hWF
  | dict d => rw [hraw] at hWF; cases hWF

theorem projectLoop_total_preserves (mk : String → String)
    (hmk : ∀ s, colsOK s = true →
      reservedKeys.contains (mk (replaceDots s)) = false) :
    ∀ (l : List PyVal) (row : PyDict), (∀ a ∈ l, entryProjWF a = true) →
      ∃ row2, projectLoop mk l row = .ok row2 ∧
        ∀ k, reservedKeys.contains k = true → dget row2 k = dget row k := by
  intro l
  induction l with
  | nil => intro row _; exact ⟨row, rfl, fun _ _ => rfl⟩
  | cons a rest ih =>
      intro row hWF
      have ha := hWF a (List.mem_cons_self a rest)
      cases a with
      | dict d =>
          simp only [entryProjWF] at ha
          cases hat : dget d "action_type" with
          | none => rw [hat] at ha; cases ha
          | some tv =>
              cases tv with
              | str s =>
                  rw [hat] at ha
                  obtain ⟨row2, hrec, hpres⟩ :=
                    ih (dset row (mk (replaceDots s)) ((dget d "value").getD .none))
                      (fun a2 ha2 => hWF a2 (List.mem_cons_of_mem _ ha2))
                  refine ⟨row2, ?_, ?_⟩
                  · simp [projectLoop, pySubscript, hat, asStrReplaceDots,
                      pyDictGet, bind, Except.bind, hrec]
                  · intro k hk
                    rw [hpres k hk,
                      dget_dset_ne _ _ _ _ (Ne.symm (ne_of_reserved hk (hmk s ha)))]
              | none => rw [hat] at ha; cases ha
              | num x => rw [hat] at ha; cases ha
              | vlist l2 => rw [hat] at ha; cases ha
              | dict d2 => rw [hat] at ha; cases ha
      | none => simp [entryProjWF] at ha
      | str s => simp [entryProjWF] at ha
      | num x => simp [entryProjWF] at ha
      | vlist l2 => simp [entryProjWF] at ha

theorem flattenField_total_preserves (key : String) (mk : String → String)
    (hmk : ∀ s, colsOK s = true →
      reservedKeys.contains (mk (replaceDots s)) = false)
    (row : PyDict) (hWF : projFieldWF row key = true) :
    ∃ row2, flattenField key mk row = .ok row2 ∧
      ∀ k, reservedKeys.contains k = true → dget row2 k = dget row k := by
  by_cases ht : truthy ((dget row key).getD .none) = true
  · obtain ⟨l, hl, hlWF⟩ := projFieldWF_elim hWF ht
    obtain ⟨row2, hloop, hpres⟩ := projectLoop_total_preserves mk hmk l row hlWF
    refine ⟨row2, ?_, hpres⟩
    have ht2 : truthy (PyVal.vlist l) = true := hl ▸ ht
    simp [flattenField, hl, ht2, pyIter, bind, Except.bind, hloop]
  · exact ⟨row, by simp [flattenField, ht], fun _ _ => rfl⟩

theorem dictsFieldWF_elim {row : PyDict} {key : String}
    (hWF : dictsFieldWF row key = true)
    (ht : truthy ((dget row key).getD .none) = true) :
    ∃ l, (dget row key).getD .none = .vlist l ∧ ∀ a ∈ l, isDictVal a = true := by
  unfold dictsFieldWF at hWF
  simp only [ht, Bool.not_true, Bool.false_or] at hWF
  cases hraw : (dget row key).getD .none with
  | vlist l =>
      rw [hraw] at hWF
      exact ⟨l, rfl, List.all_eq_true.mp hWF⟩
  | none => rw [hraw] at hWF; cases hWF
  | str s => rw [hraw] at hWF; cases hWF
  | num x => rw [hraw] at hWF; cases hWF
  | dict d => rw [hraw] at hWF; cases hWF

theorem purchaseRoasLoop_total_preserves :
    ∀ (l : List PyVal) (row : PyDict), (∀ a ∈ l, isDictVal a = true) →
      ∃ row2, purchaseRoasLoop l row = .ok row2 ∧
        ∀ k, reservedKeys.contains k = true → k ≠ "purchase_roas" →
          dget row2 k = dget row k := by
  intro l
  induction l with
  | nil => intro row _; exact ⟨row, rfl, fun _ _ _ => rfl⟩
  | cons a rest ih =>
      intro row hWF
      have ha := hWF a (List.mem_cons_self a rest)
      cases a with
      | dict d =>
          obtain ⟨row2, hrec, hpres⟩ :=
            ih (dset row "purchase_roas" ((dget d "value").getD .none))
              (fun a2 ha2 => hWF a2 (List.mem_cons_of_mem _ ha2))
          refine ⟨row2, ?_, ?_⟩
          · simp [purchaseRoasLoop, pyDictGet, bind, Except.bind, hrec]
          · intro k hk hkpr
            rw [hpres k hk hkpr, dget_dset_ne _ _ _ _ (Ne.symm hkpr)]
      | none => simp [isDictVal] at ha
      | str s => simp [isDictVal] at ha
      | num x => simp [isDictVal] at ha
      | vlist l2 => simp [isDictVal] at ha

theorem flattenPurchaseRoas_total_preserves (row : PyDict)
    (hWF : dictsFieldWF row "purchase_roas" = true) :
    ∃ row2, flattenPurchaseRoas row = .ok row2 ∧
      ∀ k, reservedKeys.contains k = true → k ≠ "purchase_roas" →
        dget row2 k = dget row k := by
  by_cases ht : truthy ((dget row "purchase_roas").getD .none) = true
  · obtain ⟨l, hl, hlWF⟩ := dictsFieldWF_elim hWF ht
    obtain ⟨row2, hloop, hpres⟩ := purchaseRoasLoop_total_preserves l row hlWF
    refine ⟨row2, ?_, hpres⟩
    have ht2 : truthy (PyVal.vlist l) = true := hl ▸ ht
    simp [flattenPurchaseRoas, hl, ht2, pyIter, bind, Except.bind, hloop]
  · exact ⟨row, by simp [flattenPurchaseRoas, ht], fun _ _ _ => rfl⟩

theorem projFieldWF_congr {row1 row2 : PyDict} {key : String}
    (h : dget row1 key = dget row2 key) :
    projFieldWF row1 key = projFieldWF row2 key := by
  unfold projFieldWF
  rw [h]

theorem dictsFieldWF_congr {row1 row2 : PyDict} {key : String}
    (h : dget row1 key = dget row2 key) :
    dictsFieldWF row1 key = dictsFieldWF row2 key := by
  unfold dictsFieldWF
  rw [h]

theorem nativeFieldWF_congr {row1 row2 : PyDict} {key : String}
    (h : dget row1 key = dget row2 key) :
    nativeFieldWF row1 key = nativeFieldWF row2 key := by
  unfold nativeFieldWF
  rw [h]

theorem roasSingletonWF_congr {row1 row2 : PyDict} {field : String}
    (h : dget row1 field = dget row2 field) :
    roasSingletonWF row1 field = roasSingletonWF row2 field := by
  unfold roasSingletonWF
  rw [h]

theorem entryHasType_of_projWF {a : PyVal} (h : entryProjWF a = true) :
    entryHasType a = true := by
  cases a with
  | dict d =>
      simp only [entryProjWF] at h
      simp only [entryHasType]
      cases hat : dget d "action_type" with
      | none => rw [hat] at h; cases h
      | some tv => simp
  | none => simp [entryProjWF] at h
  | str s => simp [entryProjWF] at h
  | num x => simp [entryProjWF] at h
  | vlist l => simp [entryProjWF] at h

theorem actionsResolverWF_of_proj {row : PyDict}
    (h : projFieldWF row "actions" = true) : actionsResolverWF row = true := by
  unfold projFieldWF at h
  unfold actionsResolverWF
  by_cases ht : truthy ((dget row "actions").getD .none) = true
  · simp only [ht, Bool.not_true, Bool.false_or] at h ⊢
    cases hraw : (dget row "actions").getD .none with
    | vlist l =>
        rw [hraw] at h
        exact List.all_eq_true.mpr
          (fun a ha => entryHasType_of_projWF ((List.all_eq_true.mp h) a ha))
    | none => rw [hraw] at h; cases h
    | str s => rw [hraw] at h; cases h
    | num x => rw [hraw] at h; cases h
    | dict d => rw [hraw] at h; cases h
  · simp only [Bool.not_eq_true] at ht
    simp [ht]

theorem flatten_full_total (row : PyDict)
    (hWF : MetaDataFull.rowWF row = true) :
    ∃ r, MetaDataFull.flatten row = .ok r := by
  unfold MetaDataFull.rowWF at hWF
  simp only [Bool.and_eq_true] at hWF
  obtain ⟨⟨⟨h1, h2⟩, h3⟩, h4⟩ := hWF
  obtain ⟨x, hx⟩ := extract_result_full_total row (actionsResolverWF_of_proj h1)
  have hpres1 : ∀ k, reservedKeys.contains k = true →
      dget (dset row "result" (.num x)) k = dget row k := by
    intro k hk
    exact dget_dset_ne _ _ _ _ (Ne.symm (ne_of_reserved hk rfl))
  have h1a : projFieldWF (dset row "result" (.num x)) "actions" = true := by
    rw [projFieldWF_congr (hpres1 "actions" rfl)]; exact h1
  obtain ⟨rowB, hfB, hpresB⟩ := flattenField_total_preserves "actions" (fun c => c)
    (fun s hs => (colsOK_elim hs).1) _ h1a
  have h2a : projFieldWF rowB "action_values" = true := by
    rw [projFieldWF_congr ((hpresB "action_values" rfl).trans
      (hpres1 "action_values" rfl))]
    exact h2
  obtain ⟨rowC, hfC, hpresC⟩ := flattenField_total_preserves "action_values"
    (fun c => c ++ "_value") (fun s hs => (colsOK_elim hs).2.1) _ h2a
  have h3a : dictsFieldWF rowC "purchase_roas" = true := by
    rw [dictsFieldWF_congr ((hpresC "purchase_roas" rfl).trans
      ((hpresB "purchase_roas" rfl).trans (hpres1 "purchase_roas" rfl)))]
    exact h3
  obtain ⟨rowD, hfD, hpresD⟩ := flattenPurchaseRoas_total_preserves _ h3a
  have h4a : projFieldWF rowD "cost_per_action_type" = true := by
    rw [projFieldWF_congr ((hpresD "cost_per_action_type" rfl (by decide)).trans
      ((hpresC "cost_per_action_type" rfl).trans
        ((hpresB "cost_per_action_type" rfl).trans
          (hpres1 "cost_per_action_type" rfl))))]
    exact h4
  obtain ⟨rowE, hfE, _⟩ := flattenField_total_preserves "cost_per_action_type"
    (fun c => "cost_per_" ++ c) (fun s hs => (colsOK_elim hs).2.2.2.2) _ h4a
  refine ⟨rowE, ?_⟩
  simp [MetaDataFull.flatten, hx, bind, Except.bind, hfB, hfC, hfD, hfE]

theorem zeroResults_preserves (row : PyDict) :
    ∀ k, reservedKeys.contains k = true →
      dget (MetaAge.zeroResults row) k = dget row k := by
  intro k hk
  unfold MetaAge.zeroResults
  rw [dget_dset_ne _ "result_value" k _ (Ne.symm (ne_of_reserved hk rfl)),
    dget_dset_ne _ "result" k _ (Ne.symm (ne_of_reserved hk rfl))]

theorem dset_result_pair_preserves (row : PyDict) (a b : PyVal) :
    ∀ k, reservedKeys.contains k = true →
      dget (dset (dset row "result" a) "result_value" b) k = dget row k := by
  intro k hk
  rw [dget_dset_ne _ "result_value" k _ (Ne.symm (ne_of_reserved hk rfl)),
    dget_dset_ne _ "result" k _ (Ne.symm (ne_of_reserved hk rfl))]

theorem dset_result_triple_preserves (row : PyDict) (a b : PyVal) (s : String) :
    ∀ k, reservedKeys.contains k = true →
      dget (dset (dset (dset row "result" a) "result_indicator" (.str s))
        "result_value" b) k = dget row k := by
  intro k hk
  rw [dget_dset_ne _ "result_value" k _ (Ne.symm (ne_of_reserved hk rfl)),
    dget_dset_ne _ "result_indicator" k _ (Ne.symm (ne_of_reserved hk rfl)),
    dget_dset_ne _ "result" k _ (Ne.symm (ne_of_reserved hk rfl))]

theorem resultsStep_total_preserves (row : PyDict)
    (hWF : nativeFieldWF row "results" = true) :
    ∃ row2, MetaAge.resultsStep row = .ok row2 ∧
      ∀ k, reservedKeys.contains k = true → dget row2 k = dget row k := by
  unfold MetaAge.resultsStep
  cases hraw : (dget row "results").getD .none with
  | vlist l =>
      cases l with
      | nil => exact ⟨MetaAge.zeroResults row, rfl, zeroResults_preserves row⟩
      | cons e rest =>
          have hWFe : nativeEntryWF e = true := by
            unfold nativeFieldWF at hWF
            rw [hraw] at hWF
            exact hWF
          cases e with
          | dict d =>
              simp only [nativeEntryWF, Bool.and_eq_true] at hWFe
              obtain ⟨hv, hi⟩ := hWFe
              cases hvals : dget d "values" with
              | none =>
                  refine ⟨MetaAge.zeroResults row, ?_, zeroResults_preserves row⟩
                  simp [MetaAge.tryResults, pySubscript, hvals, bind, Except.bind]
              | some vv0 =>
                  cases vv0 with
                  | dict dv =>
                      refine ⟨MetaAge.zeroResults row, ?_, zeroResults_preserves row⟩
                      simp [MetaAge.tryResults, pySubscript, hvals, pyIndex0,
                        bind, Except.bind]
                  | vlist lv =>
                      cases lv with
                      | nil =>
                          refine ⟨MetaAge.zeroResults row, ?_,
                            zeroResults_preserves row⟩
                          simp [MetaAge.tryResults, pySubscript, hvals, pyIndex0,
                            bind, Except.bind]
                      | cons v0 vs =>
                          have hd0 : isDictVal v0 = true := by
                            rw [hvals] at hv
                            exact hv
                          cases v0 with
                          | dict d0 =>
                              cases hvv : dget d0 "value" with
                              | none =>
                                  refine ⟨MetaAge.zeroResults row, ?_,
                                    zeroResults_preserves row⟩
                                  simp [MetaAge.tryResults, pySubscript, hvals,
                                    pyIndex0, hvv, bind, Except.bind]
                              | some vv =>
                                  cases hind : dget d "indicator" with
                                  | none =>
                                      refine ⟨dset (dset row "result"
                                        (.num (safe_float vv))) "result_value"
                                        (.num (.finite 0)), ?_,
                                        dset_result_pair_preserves row _ _⟩
                                      simp [MetaAge.tryResults, pySubscript,
                                        hvals, pyIndex0, hvv, pyDictGet, hind,
                                        (show truthy (PyVal.str "") = false from rfl),
                                        bind, Except.bind, pure, Except.pure]
                                  | some iv =>
                                      cases iv with
                                      | str s =>
                                          by_cases hse : s.isEmpty = true
                                          · refine ⟨dset (dset row "result"
                                              (.num (safe_float vv)))
                                              "result_value" (.num (.finite 0)),
                                              ?_, dset_result_pair_preserves row _ _⟩
                                            simp [MetaAge.tryResults,
                                              pySubscript, hvals, pyIndex0,
                                              hvv, pyDictGet, hind, truthy,
                                              hse, bind, Except.bind, pure,
                                              Except.pure]
                                          · refine ⟨dset (dset (dset row "result"
                                              (.num (safe_float vv)))
                                              "result_indicator" (.str s))
                                              "result_value" (.num (safe_float
                                                ((dget (dset (dset row "result"
                                                  (.num (safe_float vv)))
                                                  "result_indicator" (.str s))
                                                  (MetaAge.indicatorActionType s
                                                    ++ "_catalog_value")).getD
                                                  ((dget (dset (dset row "result"
                                                    (.num (safe_float vv)))
                                                    "result_indicator" (.str s))
                                                    (MetaAge.indicatorActionType s
                                                      ++ "_value")).getD
                                                    (.num (.finite 0)))))), ?_,
                                              dset_result_triple_preserves row _ _ s⟩
                                            simp only [Bool.not_eq_true] at hse
                                            simp [MetaAge.tryResults,
                                              pySubscript, hvals, pyIndex0,
                                              hvv, pyDictGet, hind, truthy,
                                              hse, bind, Except.bind, pure,
                                              Except.pure]
                                      | none =>
                                          refine ⟨dset (dset row "result"
                                            (.num (safe_float vv))) "result_value"
                                            (.num (.finite 0)), ?_,
                                            dset_result_pair_preserves row _ _⟩
                                          simp [MetaAge.tryResults, pySubscript,
                                            hvals, pyIndex0, hvv, pyDictGet,
                                            hind, truthy, bind, Except.bind,
                                            pure, Except.pure]
                                      | num x =>
                                          have hfalse : truthy (.num x) = false := by
                                            rw [hind] at hi
                                            simpa [indicatorWF] using hi
                                          refine ⟨dset (dset row "result"
                                            (.num (safe_float vv))) "result_value"
                                            (.num (.finite 0)), ?_,
                                            dset_result_pair_preserves row _ _⟩
                                          simp [MetaAge.tryResults, pySubscript,
                                            hvals, pyIndex0, hvv, pyDictGet,
                                            hind, hfalse, bind, Except.bind,
                                            pure, Except.pure]
                                      | vlist lw =>
                                          have hfalse : truthy (.vlist lw) = false := by
                                            rw [hind] at hi
                                            simpa [indicatorWF] using hi
                                          refine ⟨dset (dset row "result"
                                            (.num (safe_float vv))) "result_value"
                                            (.num (.finite 0)), ?_,
                                            dset_result_pair_preserves row _ _⟩
                                          simp [MetaAge.tryResults, pySubscript,
                                            hvals, pyIndex0, hvv, pyDictGet,
                                            hind, hfalse, bind, Except.bind,
                                            pure, Except.pure]
                                      | dict dw =>
                                          have hfalse : truthy (.dict dw) = false := by
                                            rw [hind] at hi
                                            simpa [indicatorWF] using hi
                                          refine ⟨dset (dset row "result"
                                            (.num (safe_float vv))) "result_value"
                                            (.num (.finite 0)), ?_,
                                            dset_result_pair_preserves row _ _⟩
                                          simp [MetaAge.tryResults, pySubscript,
                                            hvals, pyIndex0, hvv, pyDictGet,
                                            hind, hfalse, bind, Except.bind,
                                            pure, Except.pure]
                          | none => simp [isDictVal] at hd0
                          | str s2 => simp [isDictVal] at hd0
                          | num x2 => simp [isDictVal] at hd0
                          | vlist l2 => simp [isDictVal] at hd0
                  | none =>
                      rw [hvals] at hv
                      cases hv
                  | str s2 =>
                      rw [hvals] at hv
                      cases hv
                  | num x2 =>
                      rw [hvals] at hv
                      cases hv
          | none => simp [nativeEntryWF] at hWFe
          | str s => simp [nativeEntryWF] at hWFe
          | num x => simp [nativeEntryWF] at hWFe
          | vlist l2 => simp [nativeEntryWF] at hWFe
  | none => exact ⟨MetaAge.zeroResults row, rfl, zeroResults_preserves row⟩
  | str s => exact ⟨MetaAge.zeroResults row, rfl, zeroResults_preserves row⟩
  | num x => exact ⟨MetaAge.zeroResults row, rfl, zeroResults_preserves row⟩
  | dict d => exact ⟨MetaAge.zeroResults row, rfl, zeroResults_preserves row⟩

theorem dset_cpr_preserves (row : PyDict) (v : PyVal) :
    ∀ k, reservedKeys.contains k = true →
      dget (dset row "cost_per_result_value" v) k = dget row k := by
  intro k hk
  rw [dget_dset_ne _ "cost_per_result_value" k _ (Ne.symm (ne_of_reserved hk rfl))]

theorem costPerResultStep_total_preserves (row : PyDict)
    (hWF : nativeFieldWF row "cost_per_result" = true) :
    ∃ row2, MetaAge.costPerResultStep row = .ok row2 ∧
      ∀ k, reservedKeys.contains k = true → dget row2 k = dget row k := by
  unfold MetaAge.costPerResultStep
  cases hraw : (dget row "cost_per_result").getD .none with
  | vlist l =>
      cases l with
      | nil => exact ⟨dset row "cost_per_result_value" (.num (.finite 0)), rfl,
          dset_cpr_preserves row _⟩
      | cons e rest =>
          have hWFe : nativeEntryWF e = true := by
            unfold nativeFieldWF at hWF
            rw [hraw] at hWF
            exact hWF
          cases e with
          | dict d =>
              simp only [nativeEntryWF, Bool.and_eq_true] at hWFe
              obtain ⟨hv, _⟩ := hWFe
              cases hvals : dget d "values" with
              | none =>
                  refine ⟨dset row "cost_per_result_value" (.num (.finite 0)),
                    ?_, dset_cpr_preserves row _⟩
                  simp [MetaAge.tryCostPerResult, pySubscript, hvals,
                    bind, Except.bind]
              | some vv0 =>
                  cases vv0 with
                  | dict dv =>
                      refine ⟨dset row "cost_per_result_value" (.num (.finite 0)),
                        ?_, dset_cpr_preserves row _⟩
                      simp [MetaAge.tryCostPerResult, pySubscript, hvals,
                        pyIndex0, bind, Except.bind]
                  | vlist lv =>
                      cases lv with
                      | nil =>
                          refine ⟨dset row "cost_per_result_value"
                            (.num (.finite 0)), ?_, dset_cpr_preserves row _⟩
                          simp [MetaAge.tryCostPerResult, pySubscript, hvals,
                            pyIndex0, bind, Except.bind]
                      | cons v0 vs =>
                          have hd0 : isDictVal v0 = true := by
                            rw [hvals] at hv
                            exact hv
                          cases v0 with
                          | dict d0 =>
                              cases hvv : dget d0 "value" with
                              | none =>
                                  refine ⟨dset row "cost_per_result_value"
                                    (.num (.finite 0)), ?_,
                                    dset_cpr_preserves row _⟩
                                  simp [MetaAge.tryCostPerResult, pySubscript,
                                    hvals, pyIndex0, hvv, bind, Except.bind]
                              | some vv =>
                                  refine ⟨dset row "cost_per_result_value"
                                    (.num (safe_float vv)), ?_,
                                    dset_cpr_preserves row _⟩
                                  simp [MetaAge.tryCostPerResult, pySubscript,
                                    hvals, pyIndex0, hvv, bind, Except.bind,
                                    pure, Except.pure]
                          | none => simp [isDictVal] at hd0
                          | str s2 => simp [isDictVal] at hd0
                          | num x2 => simp [isDictVal] at hd0
                          | vlist l2 => simp [isDictVal] at hd0
                  | none =>
                      rw [hvals] at hv
                      cases hv
                  | str s2 =>
                      rw [hvals] at hv
                      cases hv
                  | num x2 =>
                      rw [hvals] at hv
                      cases hv
          | none => simp [nativeEntryWF] at hWFe
          | str s => simp [nativeEntryWF] at hWFe
          | num x => simp [nativeEntryWF] at hWFe
          | vlist l2 => simp [nativeEntryWF] at hWFe
  | none => exact ⟨dset row "cost_per_result_value" (.num (.finite 0)), rfl,
      dset_cpr_preserves row _⟩
  | str s => exact ⟨dset row "cost_per_result_value" (.num (.finite 0)), rfl,
      dset_cpr_preserves row _⟩
  | num x => exact ⟨dset row "cost_per_result_value" (.num (.finite 0)), rfl,
      dset_cpr_preserves row _⟩
  | dict d => exact ⟨dset row "cost_per_result_value" (.num (.finite 0)), rfl,
      dset_cpr_preserves row _⟩

theorem roasFieldStep_total_preserves (field : String) (row : PyDict)
    (hWF : roasSingletonWF row field = true)
    (htgt : reservedKeys.contains (MetaAge.stripValueUnderscore field) = false) :
    ∃ row2, MetaAge.roasFieldStep field row = .ok row2 ∧
      ∀ k, reservedKeys.contains k = true → dget row2 k = dget row k := by
  unfold MetaAge.roasFieldStep
  cases hraw : (dget row field).getD .none with
  | vlist l =>
      cases l with
      | nil => exact ⟨row, rfl, fun _ _ => rfl⟩
      | cons v0 vs =>
          have hd0 : isDictVal v0 = true := by
            unfold roasSingletonWF at hWF
            rw [hraw] at hWF
            exact hWF
          cases v0 with
          | dict d0 =>
              cases hvv : dget d0 "value" with
              | none =>
                  refine ⟨dset row (MetaAge.stripValueUnderscore field)
                    (.num (.finite 0)), ?_, ?_⟩
                  · simp [pySubscript, hvv, bind, Except.bind]
                  · intro k hk
                    rw [dget_dset_ne _ _ k _ (Ne.symm (ne_of_reserved hk htgt))]
              | some vv =>
                  refine ⟨dset row (MetaAge.stripValueUnderscore field)
                    (.num (safe_float vv)), ?_, ?_⟩
                  · simp [pySubscript, hvv, bind, Except.bind, pure, Except.pure]
                  · intro k hk
                    rw [dget_dset_ne _ _ k _ (Ne.symm (ne_of_reserved hk htgt))]
          | none => simp [isDictVal] at hd0
          | str s2 => simp [isDictVal] at hd0
          | num x2 => simp [isDictVal] at hd0
          | vlist l2 => simp [isDictVal] at hd0
  | none => exact ⟨row, rfl, fun _ _ => rfl⟩
  | str s => exact ⟨row, rfl, fun _ _ => rfl⟩
  | num x => exact ⟨row, rfl, fun _ _ => rfl⟩
  | dict d => exact ⟨row, rfl, fun _ _ => rfl⟩

theorem roasFieldsStep_total_preserves (row : PyDict)
    (h1 : roasSingletonWF row "catalog_segment_value_mobile_purchase_roas" = true)
    (h2 : roasSingletonWF row "catalog_segment_value_omni_purchase_roas" = true)
    (h3 : roasSingletonWF row "catalog_segment_value_website_purchase_roas" = true) :
    ∃ row2, MetaAge.roasFieldsStep row = .ok row2 ∧
      ∀ k, reservedKeys.contains k = true → dget row2 k = dget row k := by
  obtain ⟨rA, hA, hpA⟩ := roasFieldStep_total_preserves
    "catalog_segment_value_mobile_purchase_roas" row h1 rfl
  have h2a : roasSingletonWF rA "catalog_segment_value_omni_purchase_roas" = true := by
    rw [roasSingletonWF_congr (hpA "catalog_segment_value_omni_purchase_roas" rfl)]
    exact h2
  obtain ⟨rB, hB, hpB⟩ := roasFieldStep_total_preserves
    "catalog_segment_value_omni_purchase_roas" rA h2a rfl
  have h3a : roasSingletonWF rB "catalog_segment_value_website_purchase_roas" = true := by
    rw [roasSingletonWF_congr
      ((hpB "catalog_segment_value_website_purchase_roas" rfl).trans
        (hpA "catalog_segment_value_website_purchase_roas" rfl))]
    exact h3
  obtain ⟨rC, hC, hpC⟩ := roasFieldStep_total_preserves
    "catalog_segment_value_website_purchase_roas" rB h3a rfl
  refine ⟨rC, ?_, fun k hk => (hpC k hk).trans ((hpB k hk).trans (hpA k hk))⟩
  simp [MetaAge.roasFieldsStep, bind, Except.bind, hA, hB, hC]

theorem flatten_age_total (row : PyDict) (hWF : MetaAge.rowWF row = true) :
    ∃ r, MetaAge.flatten row = .ok r := by
  unfold MetaAge.rowWF at hWF
  simp only [Bool.and_eq_true] at hWF
  obtain ⟨⟨⟨⟨⟨⟨⟨⟨⟨⟨hres, hcpr⟩, hact⟩, hav⟩, hcsa⟩, hcsv⟩, hr1⟩, hr2⟩, hr3⟩,
    hpr⟩, hcpa⟩ := hWF
  obtain ⟨rA, hA, hpA⟩ := resultsStep_total_preserves row hres
  have hcpr1 : nativeFieldWF rA "cost_per_result" = true := by
    rw [nativeFieldWF_congr (hpA "cost_per_result" rfl)]
    exact hcpr
  obtain ⟨rB, hB, hpB⟩ := costPerResultStep_total_preserves rA hcpr1
  have hact1 : projFieldWF rB "actions" = true := by
    rw [projFieldWF_congr ((hpB "actions" rfl).trans (hpA "actions" rfl))]
    exact hact
  obtain ⟨rC, hC, hpC⟩ := flattenField_total_preserves "actions" (fun c => c)
    (fun s hs => (colsOK_elim hs).1) rB hact1
  have hav1 : projFieldWF rC "action_values" = true := by
    rw [projFieldWF_congr ((hpC "action_values" rfl).trans
      ((hpB "action_values" rfl).trans (hpA "action_values" rfl)))]
    exact hav
  obtain ⟨rD, hD, hpD⟩ := flattenField_total_preserves "action_values"
    (fun c => c ++ "_value") (fun s hs => (colsOK_elim hs).2.1) rC hav1
  have hcsa1 : projFieldWF rD "catalog_segment_actions" = true := by
    rw [projFieldWF_congr ((hpD "catalog_segment_actions" rfl).trans
      ((hpC "catalog_segment_actions" rfl).trans
        ((hpB "catalog_segment_actions" rfl).trans
          (hpA "catalog_segment_actions" rfl))))]
    exact hcsa
  obtain ⟨rE, hE, hpE⟩ := flattenField_total_preserves "catalog_segment_actions"
    (fun c => c ++ "_catalog") (fun s hs => (colsOK_elim hs).2.2.1) rD hcsa1
  have hcsv1 : projFieldWF rE "catalog_segment_value" = true := by
    rw [projFieldWF_congr ((hpE "catalog_segment_value" rfl).trans
      ((hpD "catalog_segment_value" rfl).trans
        ((hpC "catalog_segment_value" rfl).trans
          ((hpB "catalog_segment_value" rfl).trans
            (hpA "catalog_segment_value" rfl)))))]
    exact hcsv
  obtain ⟨rF, hF, hpF⟩ := flattenField_total_preserves "catalog_segment_value"
    (fun c => c ++ "_catalog_value") (fun s hs => (colsOK_elim hs).2.2.2.1) rE hcsv1
  have hr1a : roasSingletonWF rF "catalog_segment_value_mobile_purchase_roas" = true := by
    rw [roasSingletonWF_congr
      ((hpF "catalog_segment_value_mobile_purchase_roas" rfl).trans
        ((hpE "catalog_segment_value_mobile_purchase_roas" rfl).trans
          ((hpD "catalog_segment_value_mobile_purchase_roas" rfl).trans
            ((hpC "catalog_segment_value_mobile_purchase_roas" rfl).trans
              ((hpB "catalog_segment_value_mobile_purchase_roas" rfl).trans
                (hpA "catalog_segment_value_mobile_purchase_roas" rfl))))))]
    exact hr1
  have hr2a : roasSingletonWF rF "catalog_segment_value_omni_purchase_roas" = true := by
    rw [roasSingletonWF_congr
      ((hpF "catalog_segment_value_omni_purchase_roas" rfl).trans
        ((hpE "catalog_segment_value_omni_purchase_roas" rfl).trans
          ((hpD "catalog_segment_value_omni_purchase_roas" rfl).trans
            ((hpC "catalog_segment_value_omni_purchase_roas" rfl).trans
              ((hpB "catalog_segment_value_omni_purchase_roas" rfl).trans
                (hpA "catalog_segment_value_omni_purchase_roas" rfl))))))]
    exact hr2
  have hr3a : roasSingletonWF rF "catalog_segment_value_website_purchase_roas" = true := by
    rw [roasSingletonWF_congr
      ((hpF "catalog_segment_value_website_purchase_roas" rfl).trans
        ((hpE "catalog_segment_value_website_purchase_roas" rfl).trans
          ((hpD "catalog_segment_value_website_purchase_roas" rfl).trans
            ((hpC "catalog_segment_value_website_purchase_roas" rfl).trans
              ((hpB "catalog_segment_value_website_purchase_roas" rfl).trans
                (hpA "catalog_segment_value_website_purchase_roas" rfl))))))]
    exact hr3
  obtain ⟨rG, hG, hpG⟩ := roasFieldsStep_total_preserves rF hr1a hr2a hr3a
  have hpr1 : dictsFieldWF rG "purchase_roas" = true := by
    rw [dictsFieldWF_congr ((hpG "purchase_roas" rfl).trans
      ((hpF "purchase_roas" rfl).trans ((hpE "purchase_roas" rfl).trans
        ((hpD "purchase_roas" rfl).trans ((hpC "purchase_roas" rfl).trans
          ((hpB "purchase_roas" rfl).trans (hpA "purchase_roas" rfl)))))))]
    exact hpr
  obtain ⟨rH, hH, hpH⟩ := flattenPurchaseRoas_total_preserves rG hpr1
  have hcpa1 : projFieldWF rH "cost_per_action_type" = true := by
    rw [projFieldWF_congr ((hpH "cost_per_action_type" rfl (by decide)).trans
      ((hpG "cost_per_action_type" rfl).trans
        ((hpF "cost_per_action_type" rfl).trans
          ((hpE "cost_per_action_type" rfl).trans
            ((hpD "cost_per_action_type" rfl).trans
              ((hpC "cost_per_action_type" rfl).trans
                ((hpB "cost_per_action_type" rfl).trans
                  (hpA "cost_per_action_type" rfl))))))))]
    exact hcpa
  obtain ⟨rI, hI, _⟩ := flattenField_total_preserves "cost_per_action_type"
    (fun c => "cost_per_" ++ c) (fun s hs => (colsOK_elim hs).2.2.2.2) rH hcpa1
  refine ⟨rI, ?_⟩
  simp [MetaAge.flatten, bind, Except.bind, hA, hB, hC, hD, hE, hF, hG, hH, hI]

/-- C5 amended — both flatteners are total on rows whose array-valued
fields are well formed: every projection-array entry is an object with a
string `action_type` whose derived column names avoid the raw array-field
keys, every `purchase_roas` entry is an object, and the guarded native
`results` / `cost_per_result` / catalog-ROAS first entries are objects of
the guarded shape (within which malformed entries degrade to 0 and
processing continues).  Outside that domain one malformed entry aborts
the batch — see the counterexample. -/
theorem flatten_total_on_wf_rows (row : PyDict)
    (hFull : MetaDataFull.rowWF row = true) (hAge : MetaAge.rowWF row = true) :
    (∃ r, MetaDataFull.flatten row = .ok r) ∧
    (∃ r2, MetaAge.flatten row = .ok r2) :=
  ⟨flatten_full_total row hFull, flatten_age_total row hAge⟩

/-- Witness for the amended C5: a well-formed row exercising the actions,
action_values, purchase_roas and native results arrays flattens without
raising in both scripts. -/
theorem flatten_total_on_wf_rows_witness :
    (MetaDataFull.rowWF
      [("objective", .str "OUTCOME_SALES"),
       ("actions", .vlist [.dict [("action_type", .str "omni_purchase"),
                                  ("value", .str "3")]]),
       ("action_values", .vlist [.dict [("action_type", .str "omni_purchase"),
                                        ("value", .str "90")]]),
       ("purchase_roas", .vlist [.dict [("value", .str "4.5")]]),
       ("results", .vlist [.dict [("indicator", .str "actions:omni_purchase"),
                                  ("values", .vlist [.dict [("value", .str "7")]])]])]
      = true) ∧
    (MetaAge.rowWF
      [("objective", .str "OUTCOME_SALES"),
       ("actions", .vlist [.dict [("action_type", .str "omni_purchase"),
                                  ("value", .str "3")]]),
       ("action_values", .vlist [.dict [("action_type", .str "omni_purchase"),
                                        ("value", .str "90")]]),
       ("purchase_roas", .vlist [.dict [("value", .str "4.5")]]),
       ("results", .vlist [.dict [("indicator", .str "actions:omni_purchase"),
                                  ("values", .vlist [.dict [("value", .str "7")]])]])]
      = true) ∧
    ((∃ r, MetaDataFull.flatten
      [("objective", .str "OUTCOME_SALES"),
       ("actions", .vlist [.dict [("action_type", .str "omni_purchase"),
                                  ("value", .str "3")]]),
       ("action_values", .vlist [.dict [("action_type", .str "omni_purchase"),
                                        ("value", .str "90")]]),
       ("purchase_roas", .vlist [.dict [("value", .str "4.5")]]),
       ("results", .vlist [.dict [("indicator", .str "actions:omni_purchase"),
                                  ("values", .vlist [.dict [("value", .str "7")]])]])]
      = .ok r) ∧
     (∃ r2, MetaAge.flatten
      [("objective", .str "OUTCOME_SALES"),
       ("actions", .vlist [.dict [("action_type", .str "omni_purchase"),
                                  ("value", .str "3")]]),
       ("action_values", .vlist [.dict [("action_type", .str "omni_purchase"),
                                        ("value", .str "90")]]),
       ("purchase_roas", .vlist [.dict [("value", .str "4.5")]]),
       ("results", .vlist [.dict [("indicator", .str "actions:omni_purchase"),
                                  ("values", .vlist [.dict [("value", .str "7")]])]])]
      = .ok r2)) := by
  refine ⟨by decide, by decide, ?_⟩
  exact flatten_total_on_wf_rows
    [("objective", .str "OUTCOME_SALES"),
     ("actions", .vlist [.dict [("action_type", .str "omni_purchase"),
                                ("value", .str "3")]]),
     ("action_values", .vlist [.dict [("action_type", .str "omni_purchase"),
                                      ("value", .str "90")]]),
     ("purchase_roas", .vlist [.dict [("value", .str "4.5")]]),
     ("results", .vlist [.dict [("indicator", .str "actions:omni_purchase"),
                                ("values", .vlist [.dict [("value", .str "7")]])]])]
    (by decide) (by decide)
